import Mathlib

set_option maxRecDepth 100000
set_option linter.unusedVariables false

/- Verification of the video-collection retrieval pipeline of src/youtube_api.py
(class YouTubeAPI).  Python strings are modelled as lists of characters with
structural recursion, so every definition evaluates inside the kernel; the
remote YouTube Data API is modelled as a total environment of responses; the
instance state (the three caches and api_call_count) is an explicit record
threaded through every operation.  Python float thresholds (0.9 of a count,
math.ceil of a float quotient) are modelled by exact integer comparisons, which
agree with the double-precision comparisons at every count that can arise here.
Console prints have no modelled effect.  Remote calls are modelled as total
(never raising), so try/except blocks that only guard remote failures are
transparent; the ValueError raises of the source are modelled with Except. -/

namespace YTF

/-- Python strings, modelled as lists of characters. -/
abbrev Str : Type := List Char

/-- Embeds a Lean string literal. -/
def lit (s : String) : Str := s.data

/-- Tests whether the first list is a prefix of the second (Python str.startswith). -/
def strStartsWith (needle hay : Str) : Bool :=
  match needle, hay with
  | [], _ => true
  | _ :: _, [] => false
  | a :: as, b :: bs => a == b && strStartsWith as bs

/-- Python substring membership: pyIn needle hay models the Python expression
needle in hay for a nonempty needle (every needle in the source is a nonempty
literal or a nonempty variable). -/
def pyIn (needle : Str) : Str → Bool
  | [] => needle.isEmpty
  | c :: rest => strStartsWith needle (c :: rest) || pyIn needle rest

/-- Lowercases one ASCII character (the source only compares ASCII data). -/
def charLower (c : Char) : Char :=
  if 65 ≤ c.toNat && c.toNat ≤ 90 then Char.ofNat (c.toNat + 32) else c

/-- Python str.lower for the ASCII strings the source compares. -/
def strLower (s : Str) : Str := s.map charLower

/-- Remainder of the list after the first occurrence of sep, none when absent. -/
def afterFirst (sep : Str) : Str → Option Str
  | [] => if sep.isEmpty then some [] else none
  | c :: rest =>
    if strStartsWith sep (c :: rest) then some ((c :: rest).drop sep.length)
    else afterFirst sep rest

/-- Fuel-driven scan for pySplitLast: repeatedly skips past sep occurrences. -/
def splitLastAux (sep : Str) : Nat → Str → Str
  | 0, s => s
  | fuel + 1, s =>
    match afterFirst sep s with
    | none => s
    | some rest => splitLastAux sep fuel rest

/-- Python s.split(sep)[-1] for nonempty sep: the text after the last
occurrence found by a left-to-right non-overlapping scan, s itself when sep is
absent. -/
def pySplitLast (s sep : Str) : Str := splitLastAux sep s.length s

/-- Python s.split(sep)[0] for nonempty sep: the text before the first
occurrence of sep, the whole string when sep is absent. -/
def pySplitHead (sep : Str) : Str → Str
  | [] => []
  | c :: rest => if strStartsWith sep (c :: rest) then [] else c :: pySplitHead sep rest

/-- Fuel-driven scan for strReplace. -/
def replaceAux (old new : Str) : Nat → Str → Str
  | 0, s => s
  | _ + 1, [] => []
  | fuel + 1, c :: rest =>
    if !old.isEmpty && strStartsWith old (c :: rest) then
      new ++ replaceAux old new fuel ((c :: rest).drop old.length)
    else c :: replaceAux old new fuel rest

/-- Python s.replace(old, new) for nonempty old: replaces every occurrence
found by a left-to-right non-overlapping scan. -/
def strReplace (s old new : Str) : Str := replaceAux old new s.length s

instance instDecEqExcept {ε α : Type} [DecidableEq ε] [DecidableEq α] :
    DecidableEq (Except ε α)
  | Except.error e, Except.error f =>
    if h : e = f then isTrue (by rw [h]) else isFalse (fun hh => by injection hh; contradiction)
  | Except.error _, Except.ok _ => isFalse (fun hh => Except.noConfusion hh)
  | Except.ok _, Except.error _ => isFalse (fun hh => Except.noConfusion hh)
  | Except.ok a, Except.ok b =>
    if h : a = b then isTrue (by rw [h]) else isFalse (fun hh => by injection hh; contradiction)

/-- ChannelInfo dictionary built by get_channel_info (src/youtube_api.py:288). -/
structure ChannelInfo where
  channel_id : Str
  uploads_playlist_id : Str
  video_count : Nat
deriving DecidableEq

/-- VideoRecord dictionary built by _get_video_details (src/youtube_api.py:728). -/
structure VideoRecord where
  id : Str
  title : Str
  description : Str
  published_at : Str
  thumbnail : Str
  view_count : Nat
  like_count : Nat
  comment_count : Nat
  duration : Str
  url : Str
deriving DecidableEq

/-- One item of a videos().list response, before normalization into a VideoRecord. -/
structure ApiVideoItem where
  id : Str
  title : Str
  description : Str
  publishedAt : Str
  thumbnail : Str
  viewCount : Nat
  likeCount : Nat
  commentCount : Nat
  duration : Str
deriving DecidableEq

/-- One item of a search().list(type=channel) response. -/
structure SearchItem where
  channelId : Str
  title : Str
  description : Str
deriving DecidableEq

/-- One item of a channels().list response: id, uploads playlist, videoCount. -/
structure ChannelListItem where
  id : Str
  uploads : Str
  videoCount : Nat
deriving DecidableEq

/-- One page of a playlistItems().list response: each item is the nested
snippet.resourceId.videoId when present, none when that field is missing (a
deleted video); hasNext models the presence of nextPageToken.  Pagination by
opaque continuation tokens is modelled by the ordinal of the page in the token
chain (the request without a token is page 0). -/
structure Page where
  items : List (Option Str)
  hasNext : Bool
deriving DecidableEq

/-- The remote YouTube Data API, as a total environment of responses.
channelsById is channels().list(id=x) (none models an empty items list);
channelsByUsername is channels().list(forUsername=x); searchChannels q n is
search().list(q, type=channel, maxResults=n); searchVideos c is the video ids of
search().list(channelId=c, type=video, order=date, maxResults=50); playlistsList
is playlists().list(id=x) (some n models one item with itemCount n);
playlistPage p k is page k of playlistItems().list(playlistId=p); detailItems is
videos().list(id=chunk). -/
structure Env where
  channelsById : Str → Option ChannelListItem
  channelsByUsername : Str → Option ChannelListItem
  searchChannels : Str → Nat → List SearchItem
  searchVideos : Str → List Str
  playlistsList : Str → Option Nat
  playlistPage : Str → Nat → Page
  detailItems : List Str → List ApiVideoItem

/-- Instance state of the YouTubeAPI object: the cache dict set up in __init__
(src/youtube_api.py:76) and the api_call_count counter (line 83).  The dicts are
association lists with Python dict lookup and assignment semantics. -/
structure St where
  channelInfoCache : List (Str × ChannelInfo)
  videoCache : List (Str × VideoRecord)
  playlistCache : List (Str × List VideoRecord)
  apiCalls : Nat
deriving DecidableEq

/-- A progress callback, progress_callback(page, count); the result may be an
error, modelling a callback that raises. -/
abbrev Callback : Type := Nat → Nat → Except Str Unit

/-- The local collection state of one get_videos_from_playlist run: the
processed_video_ids set and the all_video_ids list of the source.  seen is
instrumentation recording every successfully extracted video id in processing
order, and trace is instrumentation recording the arguments of every progress
callback invocation; neither is read by any modelled operation. -/
structure CollectAcc where
  processed : List Str
  allIds : List Str
  seen : List Str
  trace : List (Nat × Nat)
deriving DecidableEq

/-- Result of folding one batch of playlist items into the dedup state. -/
structure FoldOut where
  processed : List Str
  seen : List Str
  batch : List Str
deriving DecidableEq

/-- Result of one get_videos_from_playlist run: its return value or raised
error, the instance state after it, and the final collection state (the last
kept for the instrumented fields). -/
structure PlaylistRun where
  result : Except Str (List VideoRecord)
  st : St
  acc : CollectAcc
deriving DecidableEq

/-- Return dictionaries of the two estimators: the success shape
(estimated_calls, video_count or playlist_size, already_cached) or the error
shape (error, calls_made). -/
inductive EstimateOut : Type where
  | ok (estimated_calls : Nat) (count : Nat) (already_cached : Bool)
  | err (msg : Str) (calls_made : Nat)
deriving DecidableEq

/-- Python dict lookup on an association list. -/
def lookupA {α : Type} : List (Str × α) → Str → Option α
  | [], _ => none
  | (k, v) :: rest, key => if k = key then some v else lookupA rest key

/-- Python dict assignment d[k] = v: overwrites in place, else appends. -/
def insertA {α : Type} (l : List (Str × α)) (k : Str) (v : α) : List (Str × α) :=
  if (lookupA l k).isSome then l.map (fun p => if p.1 = k then (k, v) else p)
  else l ++ [(k, v)]

/-- One remote call: _execute_api_request increments api_call_count
(src/youtube_api.py:94). -/
def bump (st : St) : St := { st with apiCalls := st.apiCalls + 1 }

/-- Normalizes a videos().list item into the video_data dictionary
(src/youtube_api.py:728). -/
def videoRecordOfItem (it : ApiVideoItem) : VideoRecord :=
  { id := it.id, title := it.title, description := it.description,
    published_at := it.publishedAt, thumbnail := it.thumbnail,
    view_count := it.viewCount, like_count := it.likeCount,
    comment_count := it.commentCount, duration := it.duration,
    url := lit "https://www.youtube.com/watch?v=" ++ it.id }

/-- Caches every item of one detail response (src/youtube_api.py:726). -/
def insertItems (st : St) (items : List ApiVideoItem) : St :=
  items.foldl
    (fun st it => { st with videoCache := insertA st.videoCache it.id (videoRecordOfItem it) })
    st

/-- The chunked fetch loop of _get_video_details (src/youtube_api.py:717):
for i in range(0, len(uncached), 50), one videos().list call per chunk of at
most 50 ids, each response item cached keyed by its id. -/
def detailFetchLoop (env : Env) (uncached : List Str) (st : St) : St :=
  (List.range ((uncached.length + 49) / 50)).foldl
    (fun st j => insertItems (bump st) (env.detailItems ((uncached.drop (j * 50)).take 50)))
    st

/-- _get_video_details (src/youtube_api.py:705): splits the request into the
cached and the uncached subset, fetches the uncached subset in chunks of at most
50, then assembles the result by looking every requested id up in the now
populated cache, silently omitting ids that still resolve to nothing. -/
def getVideoDetails (env : Env) (st : St) (ids : List Str) : List VideoRecord × St :=
  if ids.isEmpty then ([], st)
  else
    let uncached := ids.filter (fun v => (lookupA st.videoCache v).isNone)
    let st1 := detailFetchLoop env uncached st
    (ids.filterMap (fun v => lookupA st1.videoCache v), st1)

/-- Folds the items of one playlist page into the dedup state: items with a
missing videoId are skipped, an id already in processed is skipped, a fresh id
is added to processed and to the batch (src/youtube_api.py:868).  seen records
every extracted id, fresh or not. -/
def foldIds : List (Option Str) → List Str → List Str → List Str → FoldOut
  | [], processed, seen, batch => { processed := processed, seen := seen, batch := batch }
  | none :: rest, processed, seen, batch => foldIds rest processed seen batch
  | some v :: rest, processed, seen, batch =>
    if v ∈ processed then foldIds rest processed (seen ++ [v]) batch
    else foldIds rest (v :: processed) (seen ++ [v]) (batch ++ [v])

/-- max_pages of get_videos_from_playlist (src/youtube_api.py:823). -/
def playlist_max_pages : Nat := 5000

/-- max_pages of get_all_videos (src/youtube_api.py:639). -/
def channel_max_pages : Nat := 100

/-- Main page loop of get_videos_from_playlist (src/youtube_api.py:834):
one playlistItems().list call per iteration; stops when the page counter passes
max_pages (fuel runs out), when a page has no items, or when no continuation
token is returned.  After each page with items the progress callback is invoked
with (page_count, len(all_video_ids)); its outcome is caught and ignored, so
only the invocation trace is recorded.  fuel counts the pages still allowed,
pageCount is the 1-based Python page counter. -/
def playlistLoop (env : Env) (pid : Str) (cb : Option Callback) :
    Nat → Nat → CollectAcc → St → CollectAcc × St
  | 0, _, acc, st => (acc, st)
  | fuel + 1, pageCount, acc, st =>
    let page := env.playlistPage pid (pageCount - 1)
    let st1 := bump st
    if page.items.isEmpty then (acc, st1)
    else
      let f := foldIds page.items acc.processed acc.seen []
      let acc1 : CollectAcc :=
        { processed := f.processed, allIds := acc.allIds ++ f.batch, seen := f.seen,
          trace := acc.trace }
      let acc2 : CollectAcc :=
        match cb with
        | some _ => { acc1 with trace := acc1.trace ++ [(pageCount, acc1.allIds.length)] }
        | none => acc1
      if page.hasNext then playlistLoop env pid cb fuel (pageCount + 1) acc2 st1
      else (acc2, st1)

/-- Strict id extraction of the page loop in get_all_videos
(src/youtube_api.py:668): the nested videoId is accessed without a guard, so an
item with the field missing raises KeyError (none result). -/
def extractStrict : List Str → List Str → List (Option Str) → Option (List Str × List Str)
  | processed, allIds, [] => some (processed, allIds)
  | _, _, none :: _ => none
  | processed, allIds, some v :: rest =>
    if v ∈ processed then extractStrict processed allIds rest
    else extractStrict (v :: processed) (allIds ++ [v]) rest

/-- Page loop of get_all_videos (src/youtube_api.py:648): like the playlist
loop but with max_pages 100, no per-page progress callback, and unguarded
videoId access, so a missing id field raises out of the loop. -/
def channelLoop (env : Env) (pid : Str) :
    Nat → Nat → List Str → List Str → St → Except Str (List Str) × St
  | 0, _, _, allIds, st => (Except.ok allIds, st)
  | fuel + 1, pageCount, processed, allIds, st =>
    let page := env.playlistPage pid (pageCount - 1)
    let st1 := bump st
    if page.items.isEmpty then (Except.ok allIds, st1)
    else
      match extractStrict processed allIds page.items with
      | none => (Except.error (lit "KeyError: videoId"), st1)
      | some (processed1, allIds1) =>
        if page.hasNext then channelLoop env pid fuel (pageCount + 1) processed1 allIds1 st1
        else (Except.ok allIds1, st1)

/-- Special pagination of a working alternate playlist-id format
(src/youtube_api.py:968): while a token remains and special_page < max_pages,
fetch the next page, fold its items, extend all_video_ids unconditionally and
invoke the callback with (special_page, len(all_video_ids)).  fuel is
max_pages - specialPage. -/
def specialPagination (env : Env) (fid : Str) (cb : Option Callback) :
    Nat → Nat → Bool → CollectAcc → St → CollectAcc × St
  | 0, _, _, acc, st => (acc, st)
  | fuel + 1, specialPage, hasTok, acc, st =>
    if hasTok then
      let sp := specialPage + 1
      let page := env.playlistPage fid (sp - 1)
      let st1 := bump st
      let f := foldIds page.items acc.processed acc.seen []
      let acc1 : CollectAcc :=
        { processed := f.processed, allIds := acc.allIds ++ f.batch, seen := f.seen,
          trace := acc.trace }
      let acc2 : CollectAcc :=
        match cb with
        | some _ => { acc1 with trace := acc1.trace ++ [(sp, acc1.allIds.length)] }
        | none => acc1
      specialPagination env fid cb fuel sp page.hasNext acc2 st1
    else (acc, st)

/-- Alternate playlist-id format loop (src/youtube_api.py:926): for each format
id other than the current playlist id, fetch its first page (one call).  When
the page has items, its fresh ids enter processed; only when more than 10 fresh
ids appear are they appended to all_video_ids, pagination of that format runs to
exhaustion and the format loop breaks.  With 10 or fewer fresh ids 
loop merely moves on, so those ids stay recorded as processed but never reach
all_video_ids. -/
def formatLoop (env : Env) (pid : Str) (cb : Option Callback) :
    List Str → CollectAcc → St → CollectAcc × St
  | [], acc, st => (acc, st)
  | fid :: rest, acc, st =>
    if fid = pid then formatLoop env pid cb rest acc st
    else
      let page := env.playlistPage fid 0
      let st1 := bump st
      if page.items.isEmpty then formatLoop env pid cb rest acc st1
      else
        let f := foldIds page.items acc.processed acc.seen []
        if 10 < f.batch.length then
          let acc1 : CollectAcc :=
            { processed := f.processed, allIds := acc.allIds ++ f.batch, seen := f.seen,
              trace := acc.trace }
          specialPagination env fid cb (playlist_max_pages - 1) 1 page.hasNext acc1 st1
        else
          let acc1 : CollectAcc :=
            { processed := f.processed, allIds := acc.allIds, seen := f.seen,
              trace := acc.trace }
          formatLoop env pid cb rest acc1 st1

/-- Search-API fallback for a modified channel id (src/youtube_api.py:1026):
one search().list(channelId=...) call; ids not yet processed are appended to
all_video_ids. -/
def searchFallback (env : Env) (pid : Str) (acc : CollectAcc) (st : St) : CollectAcc × St :=
  let origId := lit "UC" ++ pid.drop 2
  let st1 := bump st
  let f := foldIds ((env.searchVideos origId).map some) acc.processed acc.seen []
  ({ processed := f.processed, allIds := acc.allIds ++ f.batch, seen := f.seen,
     trace := acc.trace }, st1)

/-- Finish of get_videos_from_playlist (src/youtube_api.py:1046): with no
collected ids the no-videos ValueError is raised; otherwise details are
fetched, a nonempty result is cached under the playlist id, and the result is
returned. -/
def playlistFinish (env : Env) (pid : Str) (acc : CollectAcc) (st : St) : PlaylistRun :=
  if acc.allIds.isEmpty then
    { result := Except.error (lit "No videos could be retrieved from playlist ID: " ++ pid),
      st := st, acc := acc }
  else
    let vd := getVideoDetails env st acc.allIds
    let st5 :=
      if 0 < vd.1.length then { vd.2 with playlistCache := insertA vd.2.playlistCache pid vd.1 }
      else vd.2
    { result := Except.ok vd.1, st := st5, acc := acc }

/-- Body of get_videos_from_playlist after cache check and verification
(src/youtube_api.py:817): the main page loop, then (for a modified channel id
that yielded fewer than 50 ids) the alternate-format loop and the search
fallback, then the detail fetch; a run that ends with no ids raises ValueError,
otherwise the videos are cached under the playlist id (only when nonempty) and
returned. -/
def playlistBody (env : Env) (cb : Option Callback) (pid : Str) (isMod : Bool) (st : St) :
    PlaylistRun :=
  let r1 := playlistLoop env pid cb playlist_max_pages 1
    { processed := [], allIds := [], seen := [], trace := [] } st
  let origId := lit "UC" ++ pid.drop 2
  let r2 :=
    if isMod && decide (r1.1.allIds.length < 50) then
      formatLoop env pid cb
        [lit "UU" ++ origId.drop 2, lit "VLUU" ++ origId.drop 2, lit "PL" ++ pid.drop 2]
        r1.1 r1.2
    else r1
  let r3 :=
    if isMod && decide (r2.1.allIds.length < 50) then searchFallback env pid r2.1 r2.2
    else r2
  playlistFinish env pid r3.1 r3.2

/-- get_videos_from_playlist (src/youtube_api.py:771): cached listings are
returned at once; a modified channel id (UU prefix, length over 20) skips the
playlists().list verification; otherwise verification costs one call and an
absent playlist raises ValueError unless the id still looks like a U-prefixed
channel-derived id of length over 20. -/
def getVideosFromPlaylist (env : Env) (cb : Option Callback) (pid : Str) (st : St) :
    PlaylistRun :=
  match lookupA st.playlistCache pid with
  | some videos =>
    { result := Except.ok videos, st := st,
      acc := { processed := [], allIds := [], seen := [], trace := [] } }
  | none =>
    let isMod := strStartsWith (lit "UU") pid && decide (20 < pid.length)
    if isMod then playlistBody env cb pid true st
    else
      let st1 := bump st
      match env.playlistsList pid with
      | some _ => playlistBody env cb pid false st1
      | none =>
        if strStartsWith (lit "U") pid && decide (20 < pid.length) then
          playlistBody env cb pid false st1
        else
          { result := Except.error (lit "Playlist with ID '" ++ pid ++ lit "' not found"),
            st := st1,
            acc := { processed := [], allIds := [], seen := [], trace := [] } }

/-- URL normalization prologue of get_channel_info (src/youtube_api.py:246):
for recognised youtube.com URL shapes the trailing path segment is extracted
with Python split surgery; other inputs pass through unchanged. -/
def normalizeRef (r : Str) : Str :=
  if pyIn (lit "youtube.com/") r || pyIn (lit "youtu.be/") r then
    if pyIn (lit "youtube.com/c/") r then
      pySplitHead (lit "?") (pySplitHead (lit "/") (pySplitLast r (lit "/c/")))
    else if pyIn (lit "youtube.com/@") r then
      pySplitHead (lit "?") (pySplitHead (lit "/") (pySplitLast r (lit "@")))
    else if pyIn (lit "youtube.com/channel/") r then
      pySplitHead (lit "?") (pySplitHead (lit "/") (pySplitLast r (lit "/channel/")))
    else if pyIn (lit "youtube.com/user/") r then
      pySplitHead (lit "?") (pySplitHead (lit "/") (pySplitLast r (lit "/user/")))
    else r
  else r

/-- First-pass handle match (src/youtube_api.py:348): the lowercased title
contains @handle, equals the handle, or the description contains the handle
URL. -/
def handleFirstPassCond (h : Str) (it : SearchItem) : Bool :=
  pyIn (lit "@" ++ strLower h) (strLower it.title)
  || (strLower h == strLower it.title)
  || pyIn (lit "youtube.com/@" ++ strLower h) (strLower it.description)

/-- Second-pass flexible handle match (src/youtube_api.py:377): space-stripped
containment in either direction, also with underscores removed from the
handle. -/
def handleSecondPassCond (h : Str) (it : SearchItem) : Bool :=
  pyIn (strReplace (strLower h) (lit "@") [])
    (strReplace (strLower it.title) (lit " ") [])
  || pyIn (strReplace (strReplace (strLower h) (lit "@") []) (lit "_") [])
    (strReplace (strLower it.title) (lit " ") [])
  || pyIn (strReplace (strLower it.title) (lit " ") [])
    (strReplace (strLower h) (lit "@") [])

/-- One matching pass over the deduplicated search items
(src/youtube_api.py:340 and 371): for each item meeting the condition one
channels().list call is made; the first item whose details respond yields the
ChannelInfo, cached under cacheKey; matching items with an empty details
response cost their call and the scan continues. -/
def scanPass (env : Env) (cond : SearchItem → Bool) (cacheKey : Str) :
    List SearchItem → St → Option ChannelInfo × St
  | [], st => (none, st)
  | it :: rest, st =>
    if cond it then
      let st1 := bump st
      match env.channelsById it.channelId with
      | some d =>
        let info : ChannelInfo :=
          { channel_id := it.channelId, uploads_playlist_id := d.uploads,
            video_count := d.videoCount }
        (some info, { st1 with channelInfoCache := insertA st1.channelInfoCache cacheKey info })
      | none => scanPass env cond cacheKey rest st1
    else scanPass env cond cacheKey rest st

/-- Removes duplicate search items by channel id, keeping first occurrences
(src/youtube_api.py:324). -/
def dedupByChannelId : List SearchItem → List Str → List SearchItem
  | [], _ => []
  | it :: rest, seenIds =>
    if it.channelId ∈ seenIds then dedupByChannelId rest seenIds
    else it :: dedupByChannelId rest (it.channelId :: seenIds)

/-- Handle-resolution block of get_channel_info (src/youtube_api.py:298):
four search().list calls (one per search term variant), dedup by channel id,
then the exact pass and the flexible pass.  It runs for every input that is not
a raw channel id, whether or not it starts with @. -/
def handleBlock (env : Env) (r h : Str) (st : St) : Option ChannelInfo × St :=
  let terms := [lit "@" ++ h, h, strReplace h (lit "_") (lit " "),
    lit "\"" ++ h ++ lit "\""]
  let searched := terms.foldl
    (fun (p : List SearchItem × St) term => (p.1 ++ env.searchChannels term 10, bump p.2))
    ([], st)
  let uniq := dedupByChannelId searched.1 []
  match scanPass env (handleFirstPassCond h) r uniq searched.2 with
  | (some info, st1) => (some info, st1)
  | (none, st1) => scanPass env (handleSecondPassCond h) r uniq st1

/-- Scan of the keyword-search results (src/youtube_api.py:434): returns the
channel id of the first exact lowercased-title match (breaking there), together
with the substring matches collected before the break. -/
def keywordScan (r : Str) : List SearchItem → Option Str × List SearchItem
  | [] => (none, [])
  | it :: rest =>
    if strLower it.title == strLower r then (some it.channelId, [])
    else if pyIn (strLower r) (strLower it.title) then
      let p := keywordScan r rest
      (p.1, it :: p.2)
    else keywordScan r rest

/-- Single clear match test (src/youtube_api.py:470): space-stripped equality,
or containment of the marker-stripped input in the space-stripped title. -/
def clearMatchCond (r title : Str) : Bool :=
  (strReplace (strLower title) (lit " ") [] == strReplace (strLower r) (lit " ") [])
  || pyIn (strReplace (strReplace (strLower r) (lit "@") []) (lit "_") [])
    (strReplace (strLower title) (lit " ") [])

/-- Keyword-search step of get_channel_info (src/youtube_api.py:420): one
search().list(q=r, maxResults=5) call.  An exact title match recurses on its
channel id.  Otherwise with substring matches present: the first one is used
when partial matching is allowed, or when it is the single match and passes the
clear-match test; otherwise ValueError is raised naming only the query.  With no
matches at all the final not-found ValueError is raised.  recurse is the
recursive get_channel_info call (made with default arguments, so partial
matching is off in the recursion). -/
def keywordSearchStep (env : Env) (recurse : St → Str → Except Str ChannelInfo × St)
    (r : Str) (allowPartialMatches : Bool) (st : St) : Except Str ChannelInfo × St :=
  let st1 := bump st
  let items := env.searchChannels r 5
  if items.isEmpty then
    (Except.error (lit "Channel '" ++ r ++ lit "' not found. Try the full channel ID or URL instead."), st1)
  else
    match keywordScan r items with
    | (some exactId, _) => recurse st1 exactId
    | (none, subs) =>
      match subs with
      | [] =>
        (Except.error (lit "Channel '" ++ r ++ lit "' not found. Try the full channel ID or URL instead."), st1)
      | p :: rest =>
        if allowPartialMatches then recurse st1 p.channelId
        else if rest.isEmpty && clearMatchCond r p.title then recurse st1 p.channelId
        else
          (Except.error (lit "No exact match found for '" ++ r ++ lit "'. Try using the full channel URL or ID."), st1)

/-- One level of get_channel_info (src/youtube_api.py:225), with the recursive
call abstracted: cache check keyed by the literal input, URL normalization
rebinding the working reference, the direct channel-id path (which caches under
the rebound reference), the handle block, the forUsername lookup, and the
keyword-search step. -/
def getChannelInfoCore (env : Env) (recurse : St → Str → Except Str ChannelInfo × St)
    (st : St) (r0 : Str) (allowPartialMatches : Bool) : Except Str ChannelInfo × St :=
  match lookupA st.channelInfoCache r0 with
  | some info => (Except.ok info, st)
  | none =>
    let r := normalizeRef r0
    let h := if strStartsWith (lit "@") r then r.drop 1 else r
    if strStartsWith (lit "UC") r && decide (20 ≤ r.length) then
      let st1 := bump st
      match env.channelsById r with
      | none => (Except.error (lit "Channel with ID '" ++ r ++ lit "' not found"), st1)
      | some d =>
        let info : ChannelInfo :=
          { channel_id := r, uploads_playlist_id := d.uploads, video_count := d.videoCount }
        (Except.ok info, { st1 with channelInfoCache := insertA st1.channelInfoCache r info })
    else
      match handleBlock env r h st with
      | (some info, st1) => (Except.ok info, st1)
      | (none, st1) =>
        let st2 := bump st1
        match env.channelsByUsername r with
        | some d =>
          let info : ChannelInfo :=
            { channel_id := d.id, uploads_playlist_id := d.uploads,
              video_count := d.videoCount }
          (Except.ok info, { st2 with channelInfoCache := insertA st2.channelInfoCache r info })
        | none => keywordSearchStep env recurse r allowPartialMatches st2

/-- get_channel_info with a recursion budget: the Python recursion at
src/youtube_api.py:451, 464 and 475 is unbounded except for the interpreter
recursion limit, modelled by the fuel (exhaustion models RecursionError). -/
def getChannelInfo (env : Env) : Nat → St → Str → Bool → Except Str ChannelInfo × St
  | 0, st, _, _ => (Except.error (lit "RecursionError: maximum recursion depth exceeded"), st)
  | fuel + 1, st, r0, allowPartialMatches =>
    getChannelInfoCore env (fun s i => getChannelInfo env fuel s i false) st r0 allowPartialMatches

/-- The Python default recursion limit, used as the budget at every entry. -/
def recursionLimit : Nat := 1000

/-- get_videos_with_modified_id (src/youtube_api.py:559): replaces the second
character of the channel id with U and fetches that id as a playlist; an input
that does not start with UC is first resolved through get_channel_info.
Resolution errors and playlist errors propagate (the method re-raises). -/
def getVideosWithModifiedId (env : Env) (st : St) (cid : Str) (cb : Option Callback) :
    Except Str (List VideoRecord) × St :=
  if strStartsWith (lit "UC") cid then
    let run := getVideosFromPlaylist env cb (cid.take 1 ++ lit "U" ++ cid.drop 2) st
    (run.result, run.st)
  else
    match getChannelInfo env recursionLimit st cid false with
    | (Except.error e, st1) => (Except.error e, st1)
    | (Except.ok info, st1) =>
      let run := getVideosFromPlaylist env cb
        (info.channel_id.take 1 ++ lit "U" ++ info.channel_id.drop 2) st1
      (run.result, run.st)

/-- The traditional-method attempt of get_all_videos (src/youtube_api.py:621,
the inner try): channel resolution, the uploads-playlist page loop, and the
detail fetch.  An ok result carries the fetched records together with the
channel's reported video count; an error models any exception of the inner try,
which the caller catches before falling back.  The initial progress_callback(0,
0) call has its result discarded by the source and no other effect, so it is
not modelled. -/
def primaryAttempt (env : Env) (st : St) (cid : Str) (cb : Option Callback) :
    Except Str (List VideoRecord × Nat) × St :=
  match getChannelInfo env recursionLimit st cid false with
  | (Except.error e, st1) => (Except.error e, st1)
  | (Except.ok info, st1) =>
    match channelLoop env info.uploads_playlist_id channel_max_pages 1 [] [] st1 with
    | (Except.error e, st2) => (Except.error e, st2)
    | (Except.ok allIds, st2) =>
      let vd := getVideoDetails env st2 allIds
      (Except.ok (vd.1, info.video_count), vd.2)

/-- get_all_videos (src/youtube_api.py:606): when the traditional attempt
succeeds and yields at least 90 percent of the reported video count (Python
len(videos) >= expected * 0.9, exact here as 9 * expected <= 10 * len), its
records are returned; otherwise, and on any inner exception, the modified-id
method runs on the state the attempt left behind and its outcome (success or
raised error) is returned unchanged. -/
def getAllVideos (env : Env) (st : St) (cid : Str) (cb : Option Callback) :
    Except Str (List VideoRecord) × St :=
  match primaryAttempt env st cid cb with
  | (Except.ok (videos, expected), st1) =>
    if expected * 9 ≤ videos.length * 10 then (Except.ok videos, st1)
    else getVideosWithModifiedId env st1 cid cb
  | (Except.error _, st1) => getVideosWithModifiedId env st1 cid cb

/-- math.ceil(n / 50) for the counts involved (src/youtube_api.py:134). -/
def ceilDiv50 (n : Nat) : Nat := (n + 49) / 50

/-- The not-in-cache path of estimate_channel_api_calls
(src/youtube_api.py:126): counts the calls get_channel_info spends, then adds
ceil(count/50) listing calls and ceil(count/50) detail calls; an exception
becomes the error-dictionary result. -/
def estimateChannelFull (env : Env) (st : St) (r : Str) : EstimateOut × St :=
  match getChannelInfo env recursionLimit st r false with
  | (Except.ok info, st1) =>
    (EstimateOut.ok ((st1.apiCalls - st.apiCalls) + ceilDiv50 info.video_count
        + ceilDiv50 info.video_count)
      info.video_count false, st1)
  | (Except.error e, st1) => (EstimateOut.err e (st1.apiCalls - st.apiCalls), st1)

/-- estimate_channel_api_calls (src/youtube_api.py:97): when the reference is
in the channel-info cache, the cached-video count is measured as the number of
video-detail cache keys that start with the reference string
(src/youtube_api.py:115), and at 90 percent or more of video_count (Python
cached >= video_count * 0.9, exact here as 9 * video_count <= 10 * cached) the
already-cached result with one budgeted call is returned; otherwise the full
estimation path runs. -/
def estimateChannelApiCalls (env : Env) (st : St) (r : Str) : EstimateOut × St :=
  match lookupA st.channelInfoCache r with
  | some info =>
    let cachedCount := (st.videoCache.filter (fun p => strStartsWith r p.1)).length
    if info.video_count * 9 ≤ cachedCount * 10 then (EstimateOut.ok 1 info.video_count true, st)
    else estimateChannelFull env st r
  | none => estimateChannelFull env st r

/-- estimate_playlist_api_calls (src/youtube_api.py:155): any cached listing
yields the already-cached result with one budgeted call; otherwise one
playlists().list call (an absent playlist becomes the error dictionary), one
sample playlistItems().list call, then calls_made + 2 * ceil(size/50) - 1. -/
def estimatePlaylistApiCalls (env : Env) (st : St) (pid : Str) : EstimateOut × St :=
  match lookupA st.playlistCache pid with
  | some videos => (EstimateOut.ok 1 videos.length true, st)
  | none =>
    let st1 := bump st
    match env.playlistsList pid with
    | none =>
      (EstimateOut.err (lit "Playlist with ID '" ++ pid ++ lit "' not found")
        (st1.apiCalls - st.apiCalls), st1)
    | some size =>
      let st2 := bump st1
      (EstimateOut.ok ((st2.apiCalls - st.apiCalls) + ceilDiv50 size + ceilDiv50 size - 1)
        size false, st2)

/-- Subsequence of a list keeping the first occurrence of each element, in
first-seen order; acc holds the elements already seen. -/
def firstSeenAux : List Str → List Str → List Str
  | [], _ => []
  | v :: rest, acc => if v ∈ acc then firstSeenAux rest acc else v :: firstSeenAux rest (v :: acc)

/-- First-seen deduplication of a sequence of ids. -/
def firstSeen (l : List Str) : List Str := firstSeenAux l []

/-- The ids the page loop gathers from exactly n consecutive full pages,
starting at page counter pageCount. -/
def gatherPages (env : Env) (pid : Str) : Nat → Nat → List Str → List Str → List Str → List Str
  | 0, _, _, allIds, _ => allIds
  | n + 1, pageCount, processed, allIds, seen =>
    let f := foldIds (env.playlistPage pid (pageCount - 1)).items processed seen []
    gatherPages env pid n (pageCount + 1) f.processed (allIds ++ f.batch) f.seen

/-- The progress-callback invocations the main page loop owes a provided
callback: one entry (page counter, ids so far) per fetched page with items,
none for an empty page or past the page limit. -/
def loopTrace (env : Env) (pid : Str) : Nat → Nat → List Str → List Str → List Str → List (Nat × Nat)
  | 0, _, _, _, _ => []
  | fuel + 1, pageCount, processed, allIds, seen =>
    let page := env.playlistPage pid (pageCount - 1)
    if page.items.isEmpty then []
    else
      let f := foldIds page.items processed seen []
      (pageCount, (allIds ++ f.batch).length) ::
        (if page.hasNext then loopTrace env pid fuel (pageCount + 1) f.processed (allIds ++ f.batch) f.seen
         else [])


/-- A collection state with its instrumentation trace erased, for stating that
an outcome does not depend on the callback. -/
def stripT (a : CollectAcc) : CollectAcc :=
  { processed := a.processed, allIds := a.allIds, seen := a.seen, trace := [] }

/-- An environment in which every remote call returns an empty response. -/
def env0 : Env :=
  { channelsById := fun _ => none,
    channelsByUsername := fun _ => none,
    searchChannels := fun _ _ => [],
    searchVideos := fun _ => [],
    playlistsList := fun _ => none,
    playlistPage := fun _ _ => { items := [], hasNext := false },
    detailItems := fun _ => [] }

/-- The state of a freshly constructed client. -/
def st0 : St :=
  { channelInfoCache := [], videoCache := [], playlistCache := [], apiCalls := 0 }

/-- A detail-response item carrying just an id, the other fields empty. -/
def mkItem (v : Str) : ApiVideoItem :=
  { id := v, title := [], description := [], publishedAt := [], thumbnail := [],
    viewCount := 0, likeCount := 0, commentCount := 0, duration := [] }

/-- The VideoRecord the pipeline builds for mkItem v. -/
def mkRec (v : Str) : VideoRecord := videoRecordOfItem (mkItem v)

/-- A detail responder returning one item per requested id. -/
def echoDetails : List Str → List ApiVideoItem := fun chunk => chunk.map mkItem

/-- Channel id used by the get_all_videos scenarios. -/
def cidC1 : Str := lit "UCABCDEFGHIJKLMNOPQRST"

/-- Environment for the get_all_videos union scenario: the channel reports 100
videos, the uploads playlist yields only the id a, and the modified-id playlist
yields only the id b. -/
def envC1 : Env :=
  { env0 with
    channelsById := fun i =>
      if i = cidC1 then some { id := cidC1, uploads := lit "UPLOADS1", videoCount := 100 }
      else none,
    playlistPage := fun p k =>
      if decide (k = 0) then
        if p = lit "UPLOADS1" then { items := [some (lit "a")], hasNext := false }
        else if p = lit "UUABCDEFGHIJKLMNOPQRST" then { items := [some (lit "b")], hasNext := false }
        else { items := [], hasNext := false }
      else { items := [], hasNext := false },
    detailItems := echoDetails }

/-- Channel id used by the 90-percent-threshold scenarios. -/
def cidC3 : Str := lit "UCQRSTUVWXYZABCDEFGHIJ"

/-- Forty distinct video ids. -/
def vidsC3 : List Str := (List.range 40).map (fun i => lit "w" ++ Nat.toDigits 10 i)

/-- Ninety-five distinct video ids. -/
def vidsC3b : List Str := (List.range 95).map (fun i => lit "w" ++ Nat.toDigits 10 i)

/-- Environment where the channel reports 100 videos and the uploads playlist
yields 40. -/
def envC3 : Env :=
  { env0 with
    channelsById := fun i =>
      if i = cidC3 then some { id := cidC3, uploads := lit "UPL3", videoCount := 100 }
      else none,
    playlistPage := fun p k =>
      if p = lit "UPL3" && decide (k = 0) then { items := vidsC3.map some, hasNext := false }
      else { items := [], hasNext := false },
    detailItems := echoDetails }

/-- Environment where the channel reports 100 videos and the uploads playlist
yields 95. -/
def envC3b : Env :=
  { env0 with
    channelsById := fun i =>
      if i = cidC3 then some { id := cidC3, uploads := lit "UPL3", videoCount := 100 }
      else none,
    playlistPage := fun p k =>
      if p = lit "UPL3" && decide (k = 0) then { items := vidsC3b.map some, hasNext := false }
      else { items := [], hasNext := false },
    detailItems := echoDetails }

/-- A raw channel id of length 20. -/
def idC2 : Str := lit "UC0123456789abcdefgh"

/-- A channel URL whose trailing segment is idC2. -/
def urlC2 : Str := lit "https://www.youtube.com/channel/UC0123456789abcdefgh"

/-- Environment resolving idC2. -/
def envC2 : Env :=
  { env0 with
    channelsById := fun i =>
      if i = idC2 then some { id := idC2, uploads := lit "UU0123456789abcdefgh", videoCount := 3 }
      else none }

/-- The ChannelInfo envC2 yields for idC2. -/
def infoC2 : ChannelInfo :=
  { channel_id := idC2, uploads_playlist_id := lit "UU0123456789abcdefgh", video_count := 3 }

/-- First keyword-search candidate: contains the query gamma z as a substring. -/
def itemC7a : SearchItem :=
  { channelId := lit "UCaaaaaaaaaaaaaaaaaaaa", title := lit "The gamma zoo", description := [] }

/-- Second keyword-search candidate: also contains the query as a substring. -/
def itemC7b : SearchItem :=
  { channelId := lit "UCbbbbbbbbbbbbbbbbbbbb", title := lit "My gamma zone", description := [] }

/-- Environment in which every search for the query gamma z (in any of the
handle-block variants) returns the two substring candidates and nothing else
resolves, so resolution reaches the keyword-search step with two substring
matches and no exact match. -/
def envC7 : Env :=
  { env0 with
    searchChannels := fun q _ =>
      if q = lit "gamma z" || q = lit "@gamma z" || q = lit "\"gamma z\"" then [itemC7a, itemC7b]
      else [],
    channelsById := fun i =>
      if i = itemC7a.channelId then
        some { id := itemC7a.channelId, uploads := lit "UUaaaaaaaaaaaaaaaaaaaa", videoCount := 7 }
      else none }

/-- The ChannelInfo envC7 yields for the first candidate. -/
def infoC7 : ChannelInfo :=
  { channel_id := itemC7a.channelId, uploads_playlist_id := lit "UUaaaaaaaaaaaaaaaaaaaa",
    video_count := 7 }

/-- The message of the ValueError raised at src/youtube_api.py:478 for the
query gamma z. -/
def msgC7 : Str := lit "No exact match found for 'gamma z'. Try using the full channel URL or ID."

/-- A regular playlist id for the callback scenario. -/
def pidC9 : Str := lit "PLC9TESTPLAYLISTXYZ"

/-- Environment whose playlist has a first page with one item and a
continuation token, and an empty second page. -/
def envC9 : Env :=
  { env0 with
    playlistsList := fun p => if p = pidC9 then some 1 else none,
    playlistPage := fun p k =>
      if p = pidC9 && decide (k = 0) then { items := [some (lit "a")], hasNext := true }
      else { items := [], hasNext := false },
    detailItems := echoDetails }

/-- A progress callback that always raises. -/
def cbBoom : Callback := fun _ _ => Except.error (lit "callback failure")

/-- A modified channel id for the dedup scenario. -/
def pidC4 : Str := lit "UUABCDEFGHIJKLMNOPQRST"

/-- Environment in which the modified-id playlist yields one id a, the VLUU and
PL alternate formats both yield the id b (few enough to be dropped by the
more-than-10 gate), and the channel search returns b again. -/
def envC4 : Env :=
  { env0 with
    playlistPage := fun p k =>
      if decide (k = 0) then
        if p = pidC4 then { items := [some (lit "a")], hasNext := false }
        else if p = lit "VLUUABCDEFGHIJKLMNOPQRST" then { items := [some (lit "b")], hasNext := false }
        else if p = lit "PLABCDEFGHIJKLMNOPQRST" then { items := [some (lit "b")], hasNext := false }
        else { items := [], hasNext := false }
      else { items := [], hasNext := false },
    searchVideos := fun c => if c = lit "UCABCDEFGHIJKLMNOPQRST" then [lit "b"] else [],
    detailItems := echoDetails }

/-- Ten distinct video ids. -/
def vidsC8 : List Str := (List.range 10).map (fun i => lit "v" ++ Nat.toDigits 10 i)

/-- A cached ChannelInfo reporting 10 videos. -/
def infoC8 : ChannelInfo :=
  { channel_id := lit "UCc8c8c8c8c8c8c8c8c8c8",
    uploads_playlist_id := lit "UUc8c8c8c8c8c8c8c8c8c8", video_count := 10 }

/-- A state in which the channel reference mychan is resolved and cached and
every one of its 10 videos has a video-detail cache entry. -/
def stC8 : St :=
  { channelInfoCache := [(lit "mychan", infoC8)],
    videoCache := vidsC8.map (fun v => (v, mkRec v)),
    playlistCache := [], apiCalls := 0 }


/-- One hundred thirty distinct video ids. -/
def idsC6 : List Str := (List.range 130).map (fun i => lit "u" ++ Nat.toDigits 10 i)

/-- A state whose video-detail cache holds all of idsC6. -/
def stC6 : St := { st0 with videoCache := idsC6.map (fun v => (v, mkRec v)) }

/-- Three requested ids, the middle one unresolvable. -/
def idsC10 : List Str := [lit "x1", lit "x2", lit "x3"]

/-- A detail responder that silently drops the id x2. -/
def envC10 : Env :=
  { env0 with detailItems := fun chunk => (chunk.filter (fun v => v ≠ lit "x2")).map mkItem }

/-- A source on which every page, of every playlist, has one item and a
continuation token. -/
def envC5 : Env :=
  { env0 with playlistPage := fun _ _ => { items := [some (lit "x")], hasNext := true } }

/-- Invariant of the collection state: the processed set is exactly the set of
seen ids, and the output sequence is a subsequence of the first-seen
deduplication of the seen ids (so it is in first-seen order). -/
def InvA (acc : CollectAcc) : Prop :=
  (∀ x, x ∈ acc.processed ↔ x ∈ acc.seen)
  ∧ acc.allIds.Sublist (firstSeen acc.seen)

/- ==================== helper lemmas and claim theorems ==================== -/

/-- C1 counterexample: with envC1 the primary strategy accumulates the record
of id a (of 100 reported), the orchestrator falls back, and the value returned
is the fallback list alone, which does not contain the record of a: the union
of the records accumulated across strategies is not returned. -/
theorem c1_counterexample :
    (primaryAttempt envC1 st0 cidC1 none).1 = Except.ok ([mkRec (lit "a")], 100)
    ∧ (getAllVideos envC1 st0 cidC1 none).1 = Except.ok [mkRec (lit "b")]
    ∧ mkRec (lit "a") ∉ [mkRec (lit "b")] := by decide

/-- C2 counterexample: resolving the same channel URL twice issues a remote
call both times: the result is cached under the normalized reference, not under
the original URL string, so the second identical call is not free. -/
theorem c2_counterexample :
    (getChannelInfo envC2 recursionLimit st0 urlC2 false).1 = Except.ok infoC2
    ∧ (getChannelInfo envC2 recursionLimit st0 urlC2 false).2.apiCalls = 1
    ∧ (getChannelInfo envC2 recursionLimit
        (getChannelInfo envC2 recursionLimit st0 urlC2 false).2 urlC2 false).1 = Except.ok infoC2
    ∧ (getChannelInfo envC2 recursionLimit
        (getChannelInfo envC2 recursionLimit st0 urlC2 false).2 urlC2 false).2.apiCalls = 2 := by
  decide

/-- C4 counterexample: in envC4 the id b is seen during the alternate-format
probes and the search fallback of one get_videos_from_playlist run, yet the
produced id sequence is just a: b does not appear exactly once, because ids
first seen in a probe that yields at most 10 fresh ids are recorded as
processed but never added to the output. -/
theorem c4_counterexample :
    (getVideosFromPlaylist envC4 none pidC4 st0).acc.allIds = [lit "a"]
    ∧ lit "b" ∈ (getVideosFromPlaylist envC4 none pidC4 st0).acc.seen
    ∧ lit "b" ∉ (getVideosFromPlaylist envC4 none pidC4 st0).acc.allIds
    ∧ (getVideosFromPlaylist envC4 none pidC4 st0).acc.allIds
        ≠ firstSeen ((getVideosFromPlaylist envC4 none pidC4 st0).acc.seen) := by decide

/-- C7 counterexample: with two substring candidates and no exact match,
resolution with partial matching disallowed raises the ValueError of
src/youtube_api.py:478, whose message names only the query and neither
candidate title; with partial matching allowed the first candidate resolves. -/
theorem c7_counterexample :
    (getChannelInfo envC7 recursionLimit st0 (lit "gamma z") false).1 = Except.error msgC7
    ∧ pyIn itemC7a.title msgC7 = false
    ∧ pyIn itemC7b.title msgC7 = false
    ∧ pyIn (strLower itemC7a.title) (strLower msgC7) = false
    ∧ pyIn (strLower itemC7b.title) (strLower msgC7) = false
    ∧ (getChannelInfo envC7 recursionLimit st0 (lit "gamma z") true).1 = Except.ok infoC7 := by
  decide

/-- C9 counterexample: a run over a source whose first page has one item and a
continuation token and whose second page is empty makes two page requests but
invokes an always-raising callback exactly once: the callback is not invoked
after every page. -/
theorem c9_counterexample :
    (playlistLoop envC9 pidC9 (some cbBoom) playlist_max_pages 1
        { processed := [], allIds := [], seen := [], trace := [] } st0).2.apiCalls = 2
    ∧ (playlistLoop envC9 pidC9 (some cbBoom) playlist_max_pages 1
        { processed := [], allIds := [], seen := [], trace := [] } st0).1.trace = [(1, 1)] := by
  decide

/-- C8: the code at the failing input.  The channel mychan is resolved and
cached with video_count 10 and every one of its 10 video ids has a detail-cache
entry, yet estimate_channel_api_calls reports already_cached false with
estimated_calls 2, because it measures cache coverage by counting detail-cache
keys that start with the reference string (src/youtube_api.py:115), and video
ids never extend the channel reference. -/
theorem c8_code_bug :
    (∀ v ∈ vidsC8, (lookupA stC8.videoCache v).isSome = true)
    ∧ vidsC8.length = infoC8.video_count
    ∧ estimateChannelApiCalls env0 stC8 (lit "mychan") = (EstimateOut.ok 2 10 false, stC8) := by
  decide


/-- C1 (amended): when the traditional attempt fails, or succeeds below the
90 percent threshold, get_all_videos returns exactly the outcome of the
modified-id method run on the state the attempt left behind: the primary
accumulation is discarded rather than unioned with the fallback yield, an
under-target fallback result is returned with only a warning, and a fallback
error (such as the no-videos ValueError of src/youtube_api.py:1061) propagates
instead of the partial primary result. -/
theorem c1_fallback_replaces (env : Env) (st : St) (cid : Str) (cb : Option Callback)
    (h : (∃ videos expected stP,
        primaryAttempt env st cid cb = (Except.ok (videos, expected), stP)
        ∧ videos.length * 10 < expected * 9)
      ∨ (∃ e stP, primaryAttempt env st cid cb = (Except.error e, stP))) :
    getAllVideos env st cid cb
      = getVideosWithModifiedId env (primaryAttempt env st cid cb).2 cid cb := by
  unfold getAllVideos
  rcases h with ⟨videos, expected, stP, hp, hlt⟩ | ⟨e, stP, hp⟩
  · rw [hp]
    show (if expected * 9 ≤ videos.length * 10 then (Except.ok videos, stP)
      else getVideosWithModifiedId env stP cid cb) = getVideosWithModifiedId env stP cid cb
    rw [if_neg (by omega)]
  · rw [hp]

/-- C1 witness: the corrected behaviour, instantiated at envC1 where the
primary yield (1 of 100) is below the threshold. -/
theorem c1_witness :
    getAllVideos envC1 st0 cidC1 none
      = getVideosWithModifiedId envC1 (primaryAttempt envC1 st0 cidC1 none).2 cidC1 none := by
  exact c1_fallback_replaces envC1 st0 cidC1 none
    (Or.inl ⟨[mkRec (lit "a")], 100, (primaryAttempt envC1 st0 cidC1 none).2, by decide, by decide⟩)

/-- C3: when the traditional attempt succeeds, a yield of at least 90 percent
of the reported count (Python len(videos) >= expected * 0.9, exact here as
9 * expected <= 10 * yield) is returned as is with no further state change, so
no fallback strategy is invoked; a yield below the threshold hands control to
the alternate-id (modified playlist id) fallback before returning. -/
theorem c3_threshold (env : Env) (st : St) (cid : Str) (cb : Option Callback)
    (videos : List VideoRecord) (expected : Nat) (stP : St)
    (hp : primaryAttempt env st cid cb = (Except.ok (videos, expected), stP)) :
    (expected * 9 ≤ videos.length * 10 →
      getAllVideos env st cid cb = (Except.ok videos, stP))
    ∧ (videos.length * 10 < expected * 9 →
      getAllVideos env st cid cb = getVideosWithModifiedId env stP cid cb) := by
  constructor
  · intro hge
    unfold getAllVideos
    rw [hp]
    show (if expected * 9 ≤ videos.length * 10 then (Except.ok videos, stP)
      else getVideosWithModifiedId env stP cid cb) = (Except.ok videos, stP)
    rw [if_pos hge]
  · intro hlt
    unfold getAllVideos
    rw [hp]
    show (if expected * 9 ≤ videos.length * 10 then (Except.ok videos, stP)
      else getVideosWithModifiedId env stP cid cb) = getVideosWithModifiedId env stP cid cb
    rw [if_neg (by omega)]

/-- C3 witness: with 95 of 100 reported videos the primary result is returned
unchanged, and with 40 of 100 the modified-id fallback is run before
returning. -/
theorem c3_witness :
    getAllVideos envC3b st0 cidC3 none
      = (Except.ok (vidsC3b.map mkRec), (primaryAttempt envC3b st0 cidC3 none).2)
    ∧ getAllVideos envC3 st0 cidC3 none
      = getVideosWithModifiedId envC3 (primaryAttempt envC3 st0 cidC3 none).2 cidC3 none := by
  constructor
  · exact (c3_threshold envC3b st0 cidC3 none (vidsC3b.map mkRec) 100
      (primaryAttempt envC3b st0 cidC3 none).2 (by decide)).1 (by decide)
  · exact (c3_threshold envC3 st0 cidC3 none (vidsC3.map mkRec) 100
      (primaryAttempt envC3 st0 cidC3 none).2 (by decide)).2 (by decide)


/-- Inserting cached detail items does not touch the call counter. -/
theorem insertItems_apiCalls (items : List ApiVideoItem) :
    ∀ st : St, (insertItems st items).apiCalls = st.apiCalls := by
  induction items with
  | nil => intro st; rfl
  | cons it rest ih => intro st; exact ih _

/-- A fold whose every step makes exactly one remote call adds the length of
the folded list to the call counter. -/
theorem foldl_apiCalls {β : Type} (g : St → β → St)
    (hg : ∀ st b, (g st b).apiCalls = st.apiCalls + 1) :
    ∀ (l : List β) (st : St), (l.foldl g st).apiCalls = st.apiCalls + l.length := by
  intro l
  induction l with
  | nil => intro st; simp
  | cons b rest ih =>
    intro st
    have h2 := ih (g st b)
    simp only [List.foldl_cons, List.length_cons]
    rw [h2, hg st b]
    omega

/-- The chunked fetch loop makes exactly ceil(n / 50) remote calls for n
uncached ids. -/
theorem detailFetchLoop_calls (env : Env) (uncached : List Str) (st : St) :
    (detailFetchLoop env uncached st).apiCalls = st.apiCalls + (uncached.length + 49) / 50 := by
  unfold detailFetchLoop
  have h := foldl_apiCalls
    (fun st j => insertItems (bump st) (env.detailItems ((uncached.drop (j * 50)).take 50)))
    (fun st b => by simp [insertItems_apiCalls, bump])
    (List.range ((uncached.length + 49) / 50)) st
  simpa using h


/-- C6: _get_video_details issues one remote detail call per chunk of at most
50 uncached ids, exactly ceil(u / 50) calls for u uncached ids; in particular
130 distinct uncached ids cost exactly 3 calls (50 + 50 + 30) and a fully
cached request costs 0 calls. -/
theorem c6_batch_chunking (env : Env) (st : St) (ids : List Str) :
    (getVideoDetails env st ids).2.apiCalls
      = st.apiCalls + ((ids.filter (fun v => (lookupA st.videoCache v).isNone)).length + 49) / 50
    ∧ (ids.length = 130 → ids.Nodup → (∀ v ∈ ids, lookupA st.videoCache v = none) →
        (getVideoDetails env st ids).2.apiCalls = st.apiCalls + 3)
    ∧ ((∀ v ∈ ids, (lookupA st.videoCache v).isSome = true) →
        (getVideoDetails env st ids).2.apiCalls = st.apiCalls) := by
  have hgen : (getVideoDetails env st ids).2.apiCalls
      = st.apiCalls + ((ids.filter (fun v => (lookupA st.videoCache v).isNone)).length + 49) / 50 := by
    cases ids with
    | nil => simp [getVideoDetails]
    | cons v rest =>
      show (detailFetchLoop env ((v :: rest).filter
          (fun v => (lookupA st.videoCache v).isNone)) st).apiCalls = _
      rw [detailFetchLoop_calls]
  refine ⟨hgen, ?_, ?_⟩
  · intro hlen hnd hall
    have hfilter : ids.filter (fun v => (lookupA st.videoCache v).isNone) = ids := by
      apply List.filter_eq_self.mpr
      intro v hv
      rw [hall v hv]
      rfl
    rw [hgen, hfilter, hlen]
  · intro hall
    have hfilter : ids.filter (fun v => (lookupA st.videoCache v).isNone) = [] := by
      apply List.filter_eq_nil_iff.mpr
      intro v hv
      have hsome := hall v hv
      cases hl : lookupA st.videoCache v with
      | none => rw [hl] at hsome; exact absurd hsome (by simp)
      | some r => simp [hl]
    rw [hgen, hfilter]
    simp

/-- C6 witness: 130 distinct uncached ids cost exactly 3 detail calls, and the
same 130 ids cost 0 calls when all are cached. -/
theorem c6_witness :
    (getVideoDetails env0 st0 idsC6).2.apiCalls = st0.apiCalls + 3
    ∧ (getVideoDetails env0 stC6 idsC6).2.apiCalls = stC6.apiCalls := by
  constructor
  · exact (c6_batch_chunking env0 st0 idsC6).2.1 (by decide) (by decide) (by decide)
  · exact (c6_batch_chunking env0 stC6 idsC6).2.2 (by decide)


/-- A successful association-list lookup comes from a member pair. -/
theorem lookupA_mem {α : Type} : ∀ (l : List (Str × α)) (k : Str) (v : α),
    lookupA l k = some v → (k, v) ∈ l := by
  intro l
  induction l with
  | nil => intro k v h; exact absurd h (by simp [lookupA])
  | cons p rest ih =>
    intro k v h
    obtain ⟨k1, v1⟩ := p
    unfold lookupA at h
    by_cases hk : k1 = k
    · rw [if_pos hk] at h
      cases h
      rw [hk]
      exact List.mem_cons_self _ _
    · rw [if_neg hk] at h
      exact List.mem_cons_of_mem _ (ih k v h)

/-- Membership after a dict assignment: the pair is the assigned one or an
original member. -/
theorem mem_insertA {α : Type} (l : List (Str × α)) (k : Str) (v : α) :
    ∀ p ∈ insertA l k v, p ∈ l ∨ p = (k, v) := by
  intro p hp
  unfold insertA at hp
  by_cases hs : (lookupA l k).isSome
  · rw [if_pos hs] at hp
    rcases List.mem_map.mp hp with ⟨q, hq, hqe⟩
    by_cases hqk : q.1 = k
    · right; rw [← hqe]; simp [hqk]
    · left; rw [← hqe]; simp [hqk]; exact hq
  · rw [if_neg hs] at hp
    rcases List.mem_append.mp hp with h | h
    · left; exact h
    · right; simpa using h

/-- Well-formedness of the video-detail cache: every entry's record carries the
id it is keyed by. -/
def wfVideoCache (st : St) : Prop := ∀ p ∈ st.videoCache, (p.2 : VideoRecord).id = p.1

/-- Caching a batch of detail items preserves cache well-formedness: each item
is keyed by its own id (src/youtube_api.py:741). -/
theorem insertItems_wf (items : List ApiVideoItem) :
    ∀ st : St, wfVideoCache st → wfVideoCache (insertItems st items) := by
  induction items with
  | nil => intro st h; exact h
  | cons it rest ih =>
    intro st h
    apply ih
    intro p hp
    rcases mem_insertA st.videoCache it.id (videoRecordOfItem it) p hp with hmem | he
    · exact h p hmem
    · rw [he]
      rfl

/-- The chunked fetch loop preserves cache well-formedness. -/
theorem detailFetchLoop_wf (env : Env) (uncached : List Str) (st : St)
    (h : wfVideoCache st) : wfVideoCache (detailFetchLoop env uncached st) := by
  unfold detailFetchLoop
  generalize List.range ((uncached.length + 49) / 50) = idx
  induction idx generalizing st with
  | nil => exact h
  | cons j rest ih =>
    simp only [List.foldl_cons]
    apply ih
    apply insertItems_wf
    exact h

/-- Looking every id of a list up in a well-formed cache and keeping the hits
gives records whose ids are exactly the ids that resolve, in request order. -/
theorem filterMap_lookup_map_id (c : List (Str × VideoRecord))
    (hwf : ∀ p ∈ c, (p.2 : VideoRecord).id = p.1) :
    ∀ ids : List Str,
      (ids.filterMap (fun v => lookupA c v)).map VideoRecord.id
        = ids.filter (fun v => (lookupA c v).isSome) := by
  intro ids
  induction ids with
  | nil => rfl
  | cons v rest ih =>
    cases hl : lookupA c v with
    | none => simp [List.filterMap_cons, List.filter_cons, hl, ih]
    | some r =>
      have hid : r.id = v := hwf (v, r) (lookupA_mem c v r hl)
      simp [List.filterMap_cons, List.filter_cons, hl, ih, hid]

/-- C10: for a duplicate-free request, _get_video_details returns exactly the
records of the requested ids that resolve in the post-fetch cache, in request
order: the k-th output record is the cached record of the k-th resolvable
requested id (its id field equals that id), unresolvable ids are silently
omitted, and no error is possible. -/
theorem c10_detail_order (env : Env) (st : St) (ids : List Str)
    (hwf : wfVideoCache st) (hnd : ids.Nodup) :
    (getVideoDetails env st ids).1
      = ids.filterMap (fun v => lookupA (getVideoDetails env st ids).2.videoCache v)
    ∧ (getVideoDetails env st ids).1.map VideoRecord.id
      = ids.filter (fun v => (lookupA (getVideoDetails env st ids).2.videoCache v).isSome) := by
  have hbase : (getVideoDetails env st ids).1
      = ids.filterMap (fun v => lookupA (getVideoDetails env st ids).2.videoCache v) := by
    cases ids with
    | nil => rfl
    | cons v rest => rfl
  refine ⟨hbase, ?_⟩
  have hwf2 : wfVideoCache (getVideoDetails env st ids).2 := by
    cases ids with
    | nil => exact hwf
    | cons v rest => exact detailFetchLoop_wf env _ st hwf
  rw [hbase]
  exact filterMap_lookup_map_id (getVideoDetails env st ids).2.videoCache hwf2 ids

/-- C10 witness: three requested ids of which the middle one is unresolvable
yield the records of the first and third, in order. -/
theorem c10_witness :
    (getVideoDetails envC10 st0 idsC10).1
      = idsC10.filterMap (fun v => lookupA (getVideoDetails envC10 st0 idsC10).2.videoCache v)
    ∧ (getVideoDetails envC10 st0 idsC10).1.map VideoRecord.id
      = idsC10.filter (fun v => (lookupA (getVideoDetails envC10 st0 idsC10).2.videoCache v).isSome) := by
  exact c10_detail_order envC10 st0 idsC10 (by intro p hp; exact absurd hp (by simp [st0])) (by decide)


/-- Strict extraction succeeds on a batch with no missing id field. -/
theorem extractStrict_isSome (items : List (Option Str)) (h : ∀ o ∈ items, o ≠ none) :
    ∀ processed allIds : List Str, ∃ pa, extractStrict processed allIds items = some pa := by
  induction items with
  | nil => intro processed allIds; exact ⟨(processed, allIds), rfl⟩
  | cons o rest ih =>
    intro processed allIds
    cases o with
    | none => exact absurd rfl (h none (List.mem_cons_self _ _))
    | some v =>
      have hrest : ∀ o ∈ rest, o ≠ none := fun o ho => h o (List.mem_cons_of_mem _ ho)
      by_cases hv : v ∈ processed
      · have := ih hrest processed allIds
        simpa [extractStrict, hv] using this
      · have := ih hrest (v :: processed) (allIds ++ [v])
        simpa [extractStrict, hv] using this

/-- C5: over a source whose every page has items and a continuation token,
the page loop of get_videos_from_playlist makes exactly its page-limit number
of page requests (the fuel, 5000 as called) and returns the ids gathered from
those pages, and the page loop of get_all_videos likewise makes exactly its
page-limit number of requests (100 as called) and still returns an ok result,
never an error: hitting the limit only truncates. -/
theorem c5_page_limit (env : Env) (pid : Str) (cb : Option Callback)
    (hfull : ∀ k, (env.playlistPage pid k).items.isEmpty = false)
    (hnext : ∀ k, (env.playlistPage pid k).hasNext = true)
    (hsome : ∀ k, ∀ o ∈ (env.playlistPage pid k).items, o ≠ none) :
    (∀ fuel pageCount acc st,
      (playlistLoop env pid cb fuel pageCount acc st).2.apiCalls = st.apiCalls + fuel
      ∧ (playlistLoop env pid cb fuel pageCount acc st).1.allIds
          = gatherPages env pid fuel pageCount acc.processed acc.allIds acc.seen)
    ∧ (∀ fuel pageCount processed allIds st,
      (channelLoop env pid fuel pageCount processed allIds st).2.apiCalls = st.apiCalls + fuel
      ∧ ∃ out, (channelLoop env pid fuel pageCount processed allIds st).1 = Except.ok out) := by
  constructor
  · intro fuel
    induction fuel with
    | zero => intro pageCount acc st; exact ⟨rfl, rfl⟩
    | succ n ih =>
      intro pageCount acc st
      have hf := hfull (pageCount - 1)
      have hn := hnext (pageCount - 1)
      cases cb with
      | none =>
        have step : playlistLoop env pid none (n + 1) pageCount acc st
            = playlistLoop env pid none n (pageCount + 1)
              { processed := (foldIds (env.playlistPage pid (pageCount - 1)).items
                  acc.processed acc.seen []).processed,
                allIds := acc.allIds ++ (foldIds (env.playlistPage pid (pageCount - 1)).items
                  acc.processed acc.seen []).batch,
                seen := (foldIds (env.playlistPage pid (pageCount - 1)).items
                  acc.processed acc.seen []).seen,
                trace := acc.trace } (bump st) := by
          simp only [playlistLoop, hf, hn]
          rfl
        rw [step]
        refine ⟨?_, ?_⟩
        · rw [(ih (pageCount + 1) _ (bump st)).1]
          simp [bump]
          omega
        · rw [(ih (pageCount + 1) _ (bump st)).2]
          rfl
      | some f =>
        have step : playlistLoop env pid (some f) (n + 1) pageCount acc st
            = playlistLoop env pid (some f) n (pageCount + 1)
              { processed := (foldIds (env.playlistPage pid (pageCount - 1)).items
                  acc.processed acc.seen []).processed,
                allIds := acc.allIds ++ (foldIds (env.playlistPage pid (pageCount - 1)).items
                  acc.processed acc.seen []).batch,
                seen := (foldIds (env.playlistPage pid (pageCount - 1)).items
                  acc.processed acc.seen []).seen,
                trace := acc.trace ++ [(pageCount, (acc.allIds
                  ++ (foldIds (env.playlistPage pid (pageCount - 1)).items
                    acc.processed acc.seen []).batch).length)] } (bump st) := by
          simp only [playlistLoop, hf, hn]
          rfl
        rw [step]
        refine ⟨?_, ?_⟩
        · rw [(ih (pageCount + 1) _ (bump st)).1]
          simp [bump]
          omega
        · rw [(ih (pageCount + 1) _ (bump st)).2]
          rfl
  · intro fuel
    induction fuel with
    | zero => intro pageCount processed allIds st; exact ⟨rfl, allIds, rfl⟩
    | succ n ih =>
      intro pageCount processed allIds st
      have hf := hfull (pageCount - 1)
      have hn := hnext (pageCount - 1)
      obtain ⟨⟨processed1, allIds1⟩, hex⟩ :=
        extractStrict_isSome (env.playlistPage pid (pageCount - 1)).items
          (hsome (pageCount - 1)) processed allIds
      have step : channelLoop env pid (n + 1) pageCount processed allIds st
          = channelLoop env pid n (pageCount + 1) processed1 allIds1 (bump st) := by
        simp only [channelLoop, hf, hn, hex]
        simp
      rw [step]
      refine ⟨?_, ?_⟩
      · rw [(ih (pageCount + 1) processed1 allIds1 (bump st)).1]
        simp [bump]
        omega
      · exact (ih (pageCount + 1) processed1 allIds1 (bump st)).2

/-- C5 witness: over the all-full source envC5, the playlist loop at the real
page limit 5000 makes exactly 5000 page requests, and the channel loop at its
limit 100 makes exactly 100 requests and returns ok. -/
theorem c5_witness :
    (playlistLoop envC5 (lit "P") none playlist_max_pages 1
        { processed := [], allIds := [], seen := [], trace := [] } st0).2.apiCalls
      = st0.apiCalls + playlist_max_pages
    ∧ (channelLoop envC5 (lit "P") channel_max_pages 1 [] [] st0).2.apiCalls
      = st0.apiCalls + channel_max_pages
    ∧ ∃ out, (channelLoop envC5 (lit "P") channel_max_pages 1 [] [] st0).1 = Except.ok out := by
  have h := c5_page_limit envC5 (lit "P") none (fun k => rfl) (fun k => rfl)
    (fun k o ho => by
      have ho2 : o ∈ [some (lit "x")] := ho
      rw [List.mem_singleton.mp ho2]
      exact fun hc => Option.noConfusion hc)
  exact ⟨(h.1 playlist_max_pages 1 _ st0).1,
    (h.2 channel_max_pages 1 [] [] st0).1,
    (h.2 channel_max_pages 1 [] [] st0).2⟩


/-- Overwriting assignment then lookup on a present key yields the new value. -/
theorem lookupA_map_overwrite {α : Type} (k : Str) (v : α) :
    ∀ l : List (Str × α), (lookupA l k).isSome = true →
      lookupA (l.map (fun p => if p.1 = k then (k, v) else p)) k = some v := by
  intro l
  induction l with
  | nil => intro h; exact absurd h (by simp [lookupA])
  | cons p rest ih =>
    intro h
    obtain ⟨k1, v1⟩ := p
    by_cases hk : k1 = k
    · subst hk
      simp only [List.map_cons]
      rw [if_pos trivial]
      unfold lookupA
      rw [if_pos rfl]
    · unfold lookupA at h
      rw [if_neg hk] at h
      simp only [List.map_cons]
      rw [show ((if (k1, v1).1 = k then (k, v) else (k1, v1)) = (k1, v1)) from if_neg hk]
      unfold lookupA
      rw [if_neg hk]
      exact ih h

/-- Appending a fresh pair then lookup on its key yields its value. -/
theorem lookupA_append_last {α : Type} (k : Str) (v : α) :
    ∀ l : List (Str × α), lookupA l k = none → lookupA (l ++ [(k, v)]) k = some v := by
  intro l
  induction l with
  | nil => intro h; simp [lookupA]
  | cons p rest ih =>
    intro h
    obtain ⟨k1, v1⟩ := p
    unfold lookupA at h
    by_cases hk : k1 = k
    · rw [if_pos hk] at h; exact absurd h (by simp)
    · rw [if_neg hk] at h
      show lookupA ((k1, v1) :: (rest ++ [(k, v)])) k = some v
      unfold lookupA
      rw [if_neg hk]
      exact ih h

/-- Dict assignment then lookup on the assigned key yields the assigned value. -/
theorem lookupA_insertA_self {α : Type} (l : List (Str × α)) (k : Str) (v : α) :
    lookupA (insertA l k v) k = some v := by
  unfold insertA
  by_cases hs : (lookupA l k).isSome = true
  · rw [if_pos hs]
    exact lookupA_map_overwrite k v l hs
  · rw [if_neg hs]
    apply lookupA_append_last
    cases hl : lookupA l k with
    | none => rfl
    | some x => exact absurd (by rw [hl]; rfl) hs

/-- A reference that is not a URL passes through normalization unchanged. -/
theorem normalizeRef_id (r : Str) (h1 : pyIn (lit "youtube.com/") r = false)
    (h2 : pyIn (lit "youtu.be/") r = false) : normalizeRef r = r := by
  unfold normalizeRef
  rw [h1, h2]
  rfl

/-- C2 (amended): memoization is keyed by the working reference after URL
normalization (and a keyword-search resolution caches under the resolved id),
so a repeated call is free exactly when resolution cached under the literal
input; in particular for a raw channel id (UC prefix, length at least 20, no
URL marker) a successful call stores the ChannelInfo under the input itself and
a second call with the same literal string returns the identical ChannelInfo
with the state, hence api_call_count, unchanged. -/
theorem c2_memoization (env : Env) (fuel fuel2 : Nat) (st : St) (r : Str)
    (info : ChannelInfo) (st1 : St)
    (hf : 0 < fuel) (hf2 : 0 < fuel2)
    (hurl : pyIn (lit "youtube.com/") r = false) (hurl2 : pyIn (lit "youtu.be/") r = false)
    (hUC : strStartsWith (lit "UC") r = true) (hlen : 20 ≤ r.length)
    (h1 : getChannelInfo env fuel st r false = (Except.ok info, st1)) :
    getChannelInfo env fuel2 st1 r false = (Except.ok info, st1) := by
  obtain ⟨n, rfl⟩ : ∃ n, fuel = n + 1 := ⟨fuel - 1, by omega⟩
  obtain ⟨m, rfl⟩ : ∃ m, fuel2 = m + 1 := ⟨fuel2 - 1, by omega⟩
  have hnorm : normalizeRef r = r := normalizeRef_id r hurl hurl2
  rw [show getChannelInfo env (n + 1) st r false
      = getChannelInfoCore env (fun s i => getChannelInfo env n s i false) st r false from rfl]
    at h1
  rw [show getChannelInfo env (m + 1) st1 r false
      = getChannelInfoCore env (fun s i => getChannelInfo env m s i false) st1 r false from rfl]
  unfold getChannelInfoCore at h1 ⊢
  cases hc : lookupA st.channelInfoCache r with
  | some i =>
    rw [hc] at h1
    simp only [Prod.mk.injEq, Except.ok.injEq] at h1
    obtain ⟨hia, hib⟩ := h1
    rw [← hib, hc, hia]
  | none =>
    rw [hc] at h1
    simp only [hnorm, hUC, Bool.true_and] at h1
    rw [show (decide (20 ≤ r.length)) = true from decide_eq_true hlen] at h1
    simp only [if_pos] at h1
    cases hd : env.channelsById r with
    | none =>
      rw [hd] at h1
      exact absurd h1 (by simp)
    | some d =>
      rw [hd] at h1
      simp only [Prod.mk.injEq, Except.ok.injEq] at h1
      obtain ⟨hia, hib⟩ := h1
      have hlook : lookupA st1.channelInfoCache r = some info := by
        rw [← hib, ← hia]
        exact lookupA_insertA_self (bump st).channelInfoCache r _
      rw [hlook, ← hib]

/-- C2 witness: a raw channel id resolved once through envC2 is cached under
the literal input, so the repeat call returns the identical ChannelInfo and
leaves the state (api_call_count included) unchanged. -/
theorem c2_witness :
    getChannelInfo envC2 recursionLimit
        (getChannelInfo envC2 recursionLimit st0 idC2 false).2 idC2 false
      = (Except.ok infoC2, (getChannelInfo envC2 recursionLimit st0 idC2 false).2) := by
  exact c2_memoization envC2 recursionLimit recursionLimit st0 idC2 infoC2
    (getChannelInfo envC2 recursionLimit st0 idC2 false).2
    (by decide) (by decide) (by decide) (by decide) (by decide) (by decide) (by decide)


/-- With no exact title match among the search items, the keyword scan returns
no exact id and exactly the substring matches, in order. -/
theorem keywordScan_no_exact (r : Str) :
    ∀ items : List SearchItem,
      (∀ it ∈ items, (strLower it.title == strLower r) = false) →
      keywordScan r items
        = (none, items.filter (fun it => pyIn (strLower r) (strLower it.title))) := by
  intro items
  induction items with
  | nil => intro h; rfl
  | cons it rest ih =>
    intro h
    have hhead := h it (List.mem_cons_self _ _)
    have hrest : ∀ x ∈ rest, (strLower x.title == strLower r) = false :=
      fun x hx => h x (List.mem_cons_of_mem _ hx)
    by_cases hp : pyIn (strLower r) (strLower it.title) = true
    · simp [keywordScan, hhead, hp, ih hrest, List.filter_cons]
    · have hp2 : pyIn (strLower r) (strLower it.title) = false := by
        cases hb : pyIn (strLower r) (strLower it.title) with
        | false => rfl
        | true => exact absurd hb hp
      simp [keywordScan, hhead, hp2, ih hrest, List.filter_cons]

/-- C7 (amended): when the keyword search finds substring matches but no exact
match, resolution with allow_partial_matches true recurses into the first
substring candidate (returning its ChannelInfo); with allow_partial_matches
false a single candidate passing the clear-match test is still used, and
otherwise a ValueError is raised whose message names only the query — the
candidate titles are printed as a console warning but are not part of the
raised error. -/
theorem c7_ambiguity (env : Env) (recurse : St → Str → Except Str ChannelInfo × St)
    (r : Str) (st : St) (p : SearchItem) (ps : List SearchItem)
    (hnoexact : ∀ it ∈ env.searchChannels r 5, (strLower it.title == strLower r) = false)
    (hsubs : (env.searchChannels r 5).filter
        (fun it => pyIn (strLower r) (strLower it.title)) = p :: ps) :
    (keywordSearchStep env recurse r true st = recurse (bump st) p.channelId)
    ∧ (ps = [] → clearMatchCond r p.title = true →
        keywordSearchStep env recurse r false st = recurse (bump st) p.channelId)
    ∧ (ps ≠ [] →
        keywordSearchStep env recurse r false st
          = (Except.error (lit "No exact match found for '" ++ r
              ++ lit "'. Try using the full channel URL or ID."), bump st)) := by
  have hscan := keywordScan_no_exact r (env.searchChannels r 5) hnoexact
  have hne : (env.searchChannels r 5).isEmpty = false := by
    cases hi : env.searchChannels r 5 with
    | nil => rw [hi] at hsubs; exact absurd hsubs (by simp)
    | cons a b => rfl
  refine ⟨?_, ?_, ?_⟩
  · simp only [keywordSearchStep, hne, Bool.false_eq_true, if_false, hscan, hsubs]
    rw [if_pos trivial]
  · intro hps hclear
    subst hps
    simp only [keywordSearchStep, hne, Bool.false_eq_true, if_false, hscan, hsubs]
    simp only [List.isEmpty_nil, Bool.true_and, hclear, if_true, if_false]
  · intro hps
    obtain ⟨q, qs, rfl⟩ : ∃ q qs, ps = q :: qs := by
      cases ps with
      | nil => exact absurd rfl hps
      | cons q qs => exact ⟨q, qs, rfl⟩
    simp only [keywordSearchStep, hne, Bool.false_eq_true, if_false, hscan, hsubs]
    simp only [List.isEmpty_cons, Bool.false_and, Bool.false_eq_true, if_false]

/-- C7 witness: the corrected behaviour at envC7, where the query gamma z has
the two substring candidates and no exact match. -/
theorem c7_witness :
    keywordSearchStep envC7 (fun s i => getChannelInfo envC7 999 s i false)
        (lit "gamma z") false st0
      = (Except.error (lit "No exact match found for '" ++ lit "gamma z"
          ++ lit "'. Try using the full channel URL or ID."), bump st0)
    ∧ keywordSearchStep envC7 (fun s i => getChannelInfo envC7 999 s i false)
        (lit "gamma z") true st0
      = getChannelInfo envC7 999 (bump st0) itemC7a.channelId false := by
  have h := c7_ambiguity envC7 (fun s i => getChannelInfo envC7 999 s i false)
    (lit "gamma z") st0 itemC7a [itemC7b] (by decide) (by decide)
  exact ⟨h.2.2 (by simp), h.1⟩


/-- Appending one element to the scanned list extends the first-seen
subsequence exactly when the element is new. -/
theorem firstSeenAux_append (v : Str) : ∀ (l acc : List Str),
    firstSeenAux (l ++ [v]) acc
      = firstSeenAux l acc ++ (if v ∈ acc ∨ v ∈ l then [] else [v]) := by
  intro l
  induction l with
  | nil =>
    intro acc
    by_cases hv : v ∈ acc
    · simp [firstSeenAux, hv]
    · simp [firstSeenAux, hv]
  | cons w rest ih =>
    intro acc
    by_cases hw : w ∈ acc
    · simp only [List.cons_append, firstSeenAux, if_pos hw]
      have ihx : firstSeenAux (rest.append [v]) acc
          = firstSeenAux rest acc ++ if v ∈ acc ∨ v ∈ rest then [] else [v] := ih acc
      rw [ihx]
      congr 1
      apply if_congr _ rfl rfl
      constructor
      · rintro (hva | hvr)
        · exact Or.inl hva
        · exact Or.inr (List.mem_cons_of_mem _ hvr)
      · rintro (hva | hvwr)
        · exact Or.inl hva
        · rcases List.mem_cons.mp hvwr with rfl | hvr
          · exact Or.inl hw
          · exact Or.inr hvr
    · simp only [List.cons_append, firstSeenAux, if_neg hw]
      have ihx : firstSeenAux (rest.append [v]) (w :: acc)
          = firstSeenAux rest (w :: acc) ++ if v ∈ w :: acc ∨ v ∈ rest then [] else [v] :=
        ih (w :: acc)
      rw [ihx]
      congr 2
      apply if_congr _ rfl rfl
      constructor
      · rintro (hva | hvr)
        · rcases List.mem_cons.mp hva with rfl | hva
          · exact Or.inr (List.mem_cons_self _ _)
          · exact Or.inl hva
        · exact Or.inr (List.mem_cons_of_mem _ hvr)
      · rintro (hva | hvwr)
        · exact Or.inl (List.mem_cons_of_mem _ hva)
        · rcases List.mem_cons.mp hvwr with rfl | hvr
          · exact Or.inl (List.mem_cons_self _ _)
          · exact Or.inr hvr

/-- Scanning an already seen element leaves the first-seen subsequence
unchanged. -/
theorem firstSeen_append_mem (v : Str) (s : List Str) (h : v ∈ s) :
    firstSeen (s ++ [v]) = firstSeen s := by
  unfold firstSeen
  rw [firstSeenAux_append]
  simp [h]

/-- Scanning a new element appends it to the first-seen subsequence. -/
theorem firstSeen_append_not_mem (v : Str) (s : List Str) (h : v ∉ s) :
    firstSeen (s ++ [v]) = firstSeen s ++ [v] := by
  unfold firstSeen
  rw [firstSeenAux_append]
  simp [h]

/-- The first-seen subsequence has no duplicates and avoids the already-seen
accumulator. -/
theorem firstSeenAux_nodup : ∀ (l acc : List Str),
    (firstSeenAux l acc).Nodup ∧ ∀ x ∈ firstSeenAux l acc, x ∉ acc := by
  intro l
  induction l with
  | nil => intro acc; exact ⟨List.nodup_nil, by simp [firstSeenAux]⟩
  | cons v rest ih =>
    intro acc
    by_cases hv : v ∈ acc
    · simp only [firstSeenAux, if_pos hv]
      exact ih acc
    · simp only [firstSeenAux, if_neg hv]
      obtain ⟨hn, hni⟩ := ih (v :: acc)
      constructor
      · exact List.nodup_cons.mpr ⟨fun hmem => (hni v hmem) (List.mem_cons_self _ _), hn⟩
      · intro x hx
        rcases List.mem_cons.mp hx with rfl | hx2
        · exact hv
        · exact fun hxa => (hni x hx2) (List.mem_cons_of_mem _ hxa)

/-- The first-seen deduplication has no duplicates. -/
theorem firstSeen_nodup (l : List Str) : (firstSeen l).Nodup :=
  (firstSeenAux_nodup l []).1

/-- Folding a batch of items preserves the processed-equals-seen invariant and
produces exactly the fresh ids, which the first-seen subsequence of the new
seen list appends to the old one. -/
theorem foldIds_spec : ∀ (items : List (Option Str)) (processed seen batch : List Str),
    (∀ x, x ∈ processed ↔ x ∈ seen) →
    (∀ x, x ∈ (foldIds items processed seen batch).processed
        ↔ x ∈ (foldIds items processed seen batch).seen)
    ∧ ∃ fresh, (foldIds items processed seen batch).batch = batch ++ fresh
      ∧ firstSeen (foldIds items processed seen batch).seen = firstSeen seen ++ fresh := by
  intro items
  induction items with
  | nil =>
    intro processed seen batch h
    exact ⟨h, [], by simp [foldIds], by simp [foldIds]⟩
  | cons o rest ih =>
    intro processed seen batch h
    cases o with
    | none => exact ih processed seen batch h
    | some v =>
      by_cases hv : v ∈ processed
      · have hvs : v ∈ seen := (h v).mp hv
        have hmem : ∀ x, x ∈ processed ↔ x ∈ seen ++ [v] := by
          intro x
          rw [h x]
          constructor
          · exact fun hx => List.mem_append_left _ hx
          · intro hx
            rcases List.mem_append.mp hx with hx | hx
            · exact hx
            · rw [List.mem_singleton.mp hx]
              exact hvs
        have hrec := ih processed (seen ++ [v]) batch hmem
        obtain ⟨hm, fresh, hb, hf⟩ := hrec
        simp only [foldIds, if_pos hv]
        refine ⟨hm, fresh, hb, ?_⟩
        rw [hf, firstSeen_append_mem v seen hvs]
      · have hvs : v ∉ seen := fun hx => hv ((h v).mpr hx)
        have hmem : ∀ x, x ∈ v :: processed ↔ x ∈ seen ++ [v] := by
          intro x
          constructor
          · intro hx
            rcases List.mem_cons.mp hx with rfl | hx
            · exact List.mem_append_right _ (List.mem_singleton_self _)
            · exact List.mem_append_left _ ((h x).mp hx)
          · intro hx
            rcases List.mem_append.mp hx with hx | hx
            · exact List.mem_cons_of_mem _ ((h x).mpr hx)
            · rw [List.mem_singleton.mp hx]
              exact List.mem_cons_self _ _
        have hrec := ih (v :: processed) (seen ++ [v]) (batch ++ [v]) hmem
        obtain ⟨hm, fresh, hb, hf⟩ := hrec
        simp only [foldIds, if_neg hv]
        refine ⟨hm, [v] ++ fresh, ?_, ?_⟩
        · rw [hb]
          simp
        · rw [hf, firstSeen_append_not_mem v seen hvs]
          simp

/-- Folding one batch into the collection state preserves the invariant, both
when the fresh batch is appended to the output and when it is dropped. -/
theorem foldIds_inv (items : List (Option Str)) (acc : CollectAcc) (h : InvA acc)
    (tr : List (Nat × Nat)) :
    InvA { processed := (foldIds items acc.processed acc.seen []).processed,
           allIds := acc.allIds ++ (foldIds items acc.processed acc.seen []).batch,
           seen := (foldIds items acc.processed acc.seen []).seen, trace := tr }
    ∧ InvA { processed := (foldIds items acc.processed acc.seen []).processed,
             allIds := acc.allIds,
             seen := (foldIds items acc.processed acc.seen []).seen, trace := tr } := by
  obtain ⟨hm, fresh, hb, hf⟩ := foldIds_spec items acc.processed acc.seen [] h.1
  constructor
  · refine ⟨hm, ?_⟩
    show (acc.allIds ++ (foldIds items acc.processed acc.seen []).batch).Sublist _
    rw [hb, hf]
    simp only [List.nil_append]
    exact List.Sublist.append h.2 (List.Sublist.refl fresh)
  · refine ⟨hm, ?_⟩
    show acc.allIds.Sublist _
    rw [hf]
    exact h.2.trans (List.sublist_append_left _ _)


/-- The main page loop preserves the collection invariant. -/
theorem playlistLoop_inv (env : Env) (pid : Str) (cb : Option Callback) :
    ∀ fuel pageCount acc st, InvA acc → InvA (playlistLoop env pid cb fuel pageCount acc st).1 := by
  intro fuel
  induction fuel with
  | zero => intro pageCount acc st h; exact h
  | succ n ih =>
    intro pageCount acc st h
    have hstep := foldIds_inv (env.playlistPage pid (pageCount - 1)).items acc h
    cases cb with
    | none =>
      simp only [playlistLoop]
      split
      · exact h
      · split
        · exact ih _ _ _ (hstep acc.trace).1
        · exact (hstep acc.trace).1
    | some f =>
      simp only [playlistLoop]
      split
      · exact h
      · split
        · exact ih _ _ _ (hstep _).1
        · exact (hstep _).1

/-- The special pagination of a working alternate format preserves the
collection invariant. -/
theorem specialPagination_inv (env : Env) (fid : Str) (cb : Option Callback) :
    ∀ fuel specialPage hasTok acc st, InvA acc →
      InvA (specialPagination env fid cb fuel specialPage hasTok acc st).1 := by
  intro fuel
  induction fuel with
  | zero => intro sp ht acc st h; exact h
  | succ n ih =>
    intro sp ht acc st h
    have hstep := foldIds_inv (env.playlistPage fid (sp + 1 - 1)).items acc h
    cases cb with
    | none =>
      simp only [specialPagination]
      split
      · exact ih _ _ _ _ (hstep acc.trace).1
      · exact h
    | some f =>
      simp only [specialPagination]
      split
      · exact ih _ _ _ _ (hstep _).1
      · exact h

/-- The alternate-format loop preserves the collection invariant, both when a
format wins (its fresh ids are appended and paginated) and when a probe yields
too few fresh ids (they are dropped from the output). -/
theorem formatLoop_inv (env : Env) (pid : Str) (cb : Option Callback) :
    ∀ fmts acc st, InvA acc → InvA (formatLoop env pid cb fmts acc st).1 := by
  intro fmts
  induction fmts with
  | nil => intro acc st h; exact h
  | cons fid rest ih =>
    intro acc st h
    have hstep := foldIds_inv (env.playlistPage fid 0).items acc h
    simp only [formatLoop]
    split
    · exact ih _ _ h
    · split
      · exact ih _ _ h
      · split
        · exact specialPagination_inv env fid cb _ _ _ _ _ (hstep acc.trace).1
        · exact ih _ _ (hstep acc.trace).2

/-- The search-API fallback preserves the collection invariant. -/
theorem searchFallback_inv (env : Env) (pid : Str) (acc : CollectAcc) (st : St) (h : InvA acc) :
    InvA (searchFallback env pid acc st).1 := by
  have hstep := foldIds_inv ((env.searchVideos (lit "UC" ++ pid.drop 2)).map some) acc h
  exact (hstep acc.trace).1

/-- The body of get_videos_from_playlist preserves the collection invariant of
its final collection state. -/
theorem playlistBody_inv (env : Env) (cb : Option Callback) (pid : Str) (isMod : Bool) (st : St) :
    InvA (playlistBody env cb pid isMod st).acc := by
  have h0 : InvA { processed := [], allIds := [], seen := [], trace := ([] : List (Nat × Nat)) } :=
    ⟨fun x => Iff.rfl, List.nil_sublist _⟩
  simp only [playlistBody]
  set r1 := playlistLoop env pid cb playlist_max_pages 1
    { processed := [], allIds := [], seen := [], trace := [] } st with hr1
  set fmts := [lit "UU" ++ (lit "UC" ++ pid.drop 2).drop 2,
    lit "VLUU" ++ (lit "UC" ++ pid.drop 2).drop 2, lit "PL" ++ pid.drop 2] with hfm
  set r2 := if isMod && decide (r1.1.allIds.length < 50)
    then formatLoop env pid cb fmts r1.1 r1.2 else r1 with hr2
  set r3 := if isMod && decide (r2.1.allIds.length < 50)
    then searchFallback env pid r2.1 r2.2 else r2 with hr3
  have h1 : InvA r1.1 := playlistLoop_inv env pid cb playlist_max_pages 1
    { processed := [], allIds := [], seen := [], trace := [] } st h0
  have h2 : InvA r2.1 := by
    rw [hr2]
    split
    · exact formatLoop_inv env pid cb fmts r1.1 r1.2 h1
    · exact h1
  have h3 : InvA r3.1 := by
    rw [hr3]
    split
    · exact searchFallback_inv env pid r2.1 r2.2 h2
    · exact h2
  unfold playlistFinish
  split
  · exact h3
  · exact h3

/-- get_videos_from_playlist preserves the collection invariant of its final
collection state. -/
theorem getVideosFromPlaylist_inv (env : Env) (cb : Option Callback) (pid : Str) (st : St) :
    InvA (getVideosFromPlaylist env cb pid st).acc := by
  have hempty : InvA { processed := ([] : List Str), allIds := [], seen := [],
                       trace := ([] : List (Nat × Nat)) } :=
    ⟨fun x => Iff.rfl, List.nil_sublist _⟩
  simp only [getVideosFromPlaylist]
  split
  · exact hempty
  · split
    · exact playlistBody_inv env cb pid true st
    · split
      · exact playlistBody_inv env cb pid false (bump st)
      · split
        · exact playlistBody_inv env cb pid false (bump st)
        · exact hempty

/-- C4 (amended): in any single run of get_videos_from_playlist the produced
sequence of video ids contains each id at most once and is a subsequence of the
first-seen deduplication of all extracted ids, so its order is the first-seen
order; it need not contain every seen id, because ids first seen in an
alternate-format probe that yields at most 10 fresh ids are marked processed
but dropped from the output. -/
theorem c4_dedup (env : Env) (cb : Option Callback) (pid : Str) (st : St) :
    (getVideosFromPlaylist env cb pid st).acc.allIds.Nodup
    ∧ (getVideosFromPlaylist env cb pid st).acc.allIds.Sublist
        (firstSeen (getVideosFromPlaylist env cb pid st).acc.seen) := by
  have h := getVideosFromPlaylist_inv env cb pid st
  exact ⟨(firstSeen_nodup _).sublist h.2, h.2⟩


/-- Turns a Boolean non-truth into falsity. -/
theorem bool_not_true {b : Bool} (h : ¬b = true) : b = false := by
  cases b
  · rfl
  · exact absurd rfl h

/-- The trace a provided callback accumulates over the main page loop is
exactly the owed invocation list: one entry per fetched page with items,
carrying the page counter and the output length after that page. -/
theorem playlistLoop_trace (env : Env) (pid : Str) (f : Callback) :
    ∀ fuel pageCount acc st,
      (playlistLoop env pid (some f) fuel pageCount acc st).1.trace
        = acc.trace ++ loopTrace env pid fuel pageCount acc.processed acc.allIds acc.seen := by
  intro fuel
  induction fuel with
  | zero => intro pageCount acc st; simp [playlistLoop, loopTrace]
  | succ n ih =>
    intro pageCount acc st
    by_cases he : (env.playlistPage pid (pageCount - 1)).items.isEmpty = true
    · simp [playlistLoop, loopTrace, he]
    · have he2 := bool_not_true he
      by_cases hn : (env.playlistPage pid (pageCount - 1)).hasNext = true
      · simp only [playlistLoop, loopTrace, he2, hn, Bool.false_eq_true, if_false, if_true]
        rw [ih]
        simp
      · have hn2 := bool_not_true hn
        simp [playlistLoop, loopTrace, he2, hn2]

/-- The non-trace fields of the collection state and the instance state
produced by the main page loop do not depend on the callback. -/
theorem playlistLoop_indep (env : Env) (pid : Str) :
    ∀ fuel pageCount (cb cb2 : Option Callback) (acc acc2 : CollectAcc) (st : St),
      stripT acc = stripT acc2 →
      stripT (playlistLoop env pid cb fuel pageCount acc st).1
          = stripT (playlistLoop env pid cb2 fuel pageCount acc2 st).1
      ∧ (playlistLoop env pid cb fuel pageCount acc st).2
          = (playlistLoop env pid cb2 fuel pageCount acc2 st).2 := by
  intro fuel
  induction fuel with
  | zero => intro pageCount cb cb2 acc acc2 st h; exact ⟨h, rfl⟩
  | succ n ih =>
    intro pageCount cb cb2 acc acc2 st h
    have hp0 : (stripT acc).processed = (stripT acc2).processed := congrArg CollectAcc.processed h
    have ha0 : (stripT acc).allIds = (stripT acc2).allIds := congrArg CollectAcc.allIds h
    have hs0 : (stripT acc).seen = (stripT acc2).seen := congrArg CollectAcc.seen h
    have hp : acc.processed = acc2.processed := hp0
    have ha : acc.allIds = acc2.allIds := ha0
    have hs : acc.seen = acc2.seen := hs0
    have hfold : foldIds (env.playlistPage pid (pageCount - 1)).items acc.processed acc.seen []
        = foldIds (env.playlistPage pid (pageCount - 1)).items acc2.processed acc2.seen [] := by
      rw [hp, hs]
    by_cases he : (env.playlistPage pid (pageCount - 1)).items.isEmpty = true
    · cases cb <;> cases cb2 <;> simp only [playlistLoop, he, if_true] <;> exact ⟨h, trivial⟩
    · have he2 := bool_not_true he
      by_cases hn : (env.playlistPage pid (pageCount - 1)).hasNext = true
      · cases cb <;> cases cb2 <;>
          simp only [playlistLoop, he2, hn, Bool.false_eq_true, if_false, if_true] <;>
          exact ih (pageCount + 1) _ _ _ _ (bump st) (by simp [stripT, hfold, ha])
      · have hn2 := bool_not_true hn
        cases cb <;> cases cb2 <;>
          simp only [playlistLoop, he2, hn2, Bool.false_eq_true, if_false] <;>
          exact ⟨by simp [stripT, hfold, ha], trivial⟩


/-- The non-trace fields agree when the stripped collection states agree. -/
theorem stripT_fields {a b : CollectAcc} (h : stripT a = stripT b) :
    a.processed = b.processed ∧ a.allIds = b.allIds ∧ a.seen = b.seen := by
  have h1 : (stripT a).processed = (stripT b).processed := congrArg CollectAcc.processed h
  have h2 : (stripT a).allIds = (stripT b).allIds := congrArg CollectAcc.allIds h
  have h3 : (stripT a).seen = (stripT b).seen := congrArg CollectAcc.seen h
  exact ⟨h1, h2, h3⟩

/-- The non-trace outcome of the special pagination does not depend on the
callback. -/
theorem specialPagination_indep (env : Env) (fid : Str) :
    ∀ fuel specialPage hasTok (cb cb2 : Option Callback) (acc acc2 : CollectAcc) (st : St),
      stripT acc = stripT acc2 →
      stripT (specialPagination env fid cb fuel specialPage hasTok acc st).1
          = stripT (specialPagination env fid cb2 fuel specialPage hasTok acc2 st).1
      ∧ (specialPagination env fid cb fuel specialPage hasTok acc st).2
          = (specialPagination env fid cb2 fuel specialPage hasTok acc2 st).2 := by
  intro fuel
  induction fuel with
  | zero => intro sp ht cb cb2 acc acc2 st h; exact ⟨h, rfl⟩
  | succ n ih =>
    intro sp ht cb cb2 acc acc2 st h
    obtain ⟨hp, ha, hs⟩ := stripT_fields h
    have hfold : foldIds (env.playlistPage fid sp).items acc.processed acc.seen []
        = foldIds (env.playlistPage fid sp).items acc2.processed acc2.seen [] := by
      rw [hp, hs]
    cases ht with
    | false =>
      cases cb <;> cases cb2 <;> simp only [specialPagination, Bool.false_eq_true, if_false] <;>
        exact ⟨h, trivial⟩
    | true =>
      cases cb <;> cases cb2 <;> simp only [specialPagination, if_true] <;>
        exact ih _ _ _ _ _ _ (bump st) (by simp [stripT, hfold, ha])

/-- The non-trace outcome of the alternate-format loop does not depend on the
callback. -/
theorem formatLoop_indep (env : Env) (pid : Str) :
    ∀ fmts (cb cb2 : Option Callback) (acc acc2 : CollectAcc) (st : St),
      stripT acc = stripT acc2 →
      stripT (formatLoop env pid cb fmts acc st).1
          = stripT (formatLoop env pid cb2 fmts acc2 st).1
      ∧ (formatLoop env pid cb fmts acc st).2 = (formatLoop env pid cb2 fmts acc2 st).2 := by
  intro fmts
  induction fmts with
  | nil => intro cb cb2 acc acc2 st h; exact ⟨h, rfl⟩
  | cons fid rest ih =>
    intro cb cb2 acc acc2 st h
    obtain ⟨hp, ha, hs⟩ := stripT_fields h
    have hfold : foldIds (env.playlistPage fid 0).items acc.processed acc.seen []
        = foldIds (env.playlistPage fid 0).items acc2.processed acc2.seen [] := by
      rw [hp, hs]
    by_cases hfp : fid = pid
    · simp only [formatLoop, hfp, if_true]
      exact ih cb cb2 acc acc2 st h
    · simp only [formatLoop, if_neg hfp]
      by_cases he : (env.playlistPage fid 0).items.isEmpty = true
      · simp only [he, if_true]
        exact ih cb cb2 acc acc2 (bump st) h
      · have he2 := bool_not_true he
        simp only [he2, Bool.false_eq_true, if_false]
        by_cases hgate : 10 < (foldIds (env.playlistPage fid 0).items
            acc.processed acc.seen []).batch.length
        · have hgate2 : 10 < (foldIds (env.playlistPage fid 0).items
              acc2.processed acc2.seen []).batch.length := by
            rw [← hfold]
            exact hgate
          rw [if_pos hgate, if_pos hgate2]
          exact specialPagination_indep env fid (playlist_max_pages - 1) 1
            (env.playlistPage fid 0).hasNext cb cb2 _ _ (bump st)
            (by simp [stripT, hfold, ha])
        · have hgate2 : ¬10 < (foldIds (env.playlistPage fid 0).items
              acc2.processed acc2.seen []).batch.length := by
            rw [← hfold]
            exact hgate
          rw [if_neg hgate, if_neg hgate2]
          exact ih cb cb2 _ _ (bump st) (by simp [stripT, hfold, ha])

/-- The non-trace outcome of the search fallback depends only on the non-trace
fields of the collection state. -/
theorem searchFallback_indep (env : Env) (pid : Str) (acc acc2 : CollectAcc) (st : St)
    (h : stripT acc = stripT acc2) :
    stripT (searchFallback env pid acc st).1 = stripT (searchFallback env pid acc2 st).1
    ∧ (searchFallback env pid acc st).2 = (searchFallback env pid acc2 st).2 := by
  obtain ⟨hp, ha, hs⟩ := stripT_fields h
  have hfold : foldIds ((env.searchVideos (lit "UC" ++ pid.drop 2)).map some)
        acc.processed acc.seen []
      = foldIds ((env.searchVideos (lit "UC" ++ pid.drop 2)).map some)
        acc2.processed acc2.seen [] := by
    rw [hp, hs]
  exact ⟨by simp [searchFallback, stripT, hfold, ha], rfl⟩

/-- The returned value and final instance state of the finish phase depend only
on the collected id sequence. -/
theorem playlistFinish_indep (env : Env) (pid : Str) (acc acc2 : CollectAcc) (st : St)
    (ha : acc.allIds = acc2.allIds) :
    (playlistFinish env pid acc st).result = (playlistFinish env pid acc2 st).result
    ∧ (playlistFinish env pid acc st).st = (playlistFinish env pid acc2 st).st := by
  unfold playlistFinish
  rw [← ha]
  by_cases he : acc.allIds.isEmpty = true
  · rw [if_pos he, if_pos he]
    exact ⟨rfl, rfl⟩
  · rw [if_neg he, if_neg he]
    exact ⟨rfl, rfl⟩

/-- The returned value and final instance state of the playlist body do not
depend on the callback. -/
theorem playlistBody_indep (env : Env) (pid : Str) (isMod : Bool) (st : St)
    (cb cb2 : Option Callback) :
    (playlistBody env cb pid isMod st).result = (playlistBody env cb2 pid isMod st).result
    ∧ (playlistBody env cb pid isMod st).st = (playlistBody env cb2 pid isMod st).st := by
  simp only [playlistBody]
  obtain ⟨h1a, h1b⟩ := playlistLoop_indep env pid playlist_max_pages 1 cb cb2
    { processed := [], allIds := [], seen := [], trace := [] }
    { processed := [], allIds := [], seen := [], trace := [] } st rfl
  set A := playlistLoop env pid cb playlist_max_pages 1
    { processed := [], allIds := [], seen := [], trace := [] } st with hA
  set B := playlistLoop env pid cb2 playlist_max_pages 1
    { processed := [], allIds := [], seen := [], trace := [] } st with hB
  set fmts := [lit "UU" ++ (lit "UC" ++ pid.drop 2).drop 2,
    lit "VLUU" ++ (lit "UC" ++ pid.drop 2).drop 2, lit "PL" ++ pid.drop 2] with hfm
  obtain ⟨hp1, ha1, hs1⟩ := stripT_fields h1a
  rw [← h1b, ← ha1]
  by_cases hb1 : (isMod && decide (A.1.allIds.length < 50)) = true
  · rw [if_pos hb1, if_pos hb1]
    obtain ⟨h2a, h2b⟩ := formatLoop_indep env pid fmts cb cb2 A.1 B.1 A.2 h1a
    set C := formatLoop env pid cb fmts A.1 A.2 with hC
    set D := formatLoop env pid cb2 fmts B.1 A.2 with hD
    obtain ⟨hp2, ha2, hs2⟩ := stripT_fields h2a
    rw [← h2b, ← ha2]
    by_cases hb2 : (isMod && decide (C.1.allIds.length < 50)) = true
    · rw [if_pos hb2, if_pos hb2]
      obtain ⟨h3a, h3b⟩ := searchFallback_indep env pid C.1 D.1 C.2 h2a
      obtain ⟨hp3, ha3, hs3⟩ := stripT_fields h3a
      rw [← h3b]
      exact playlistFinish_indep env pid (searchFallback env pid C.1 C.2).1
        (searchFallback env pid D.1 C.2).1 (searchFallback env pid C.1 C.2).2 ha3
    · rw [if_neg hb2, if_neg hb2, ← h2b]
      exact playlistFinish_indep env pid C.1 D.1 C.2 ha2
  · rw [if_neg hb1, if_neg hb1, if_neg hb1]
    rw [← ha1]
    rw [if_neg hb1]
    rw [← h1b]
    exact playlistFinish_indep env pid A.1 B.1 A.2 ha1


/-- The returned value and final instance state of get_videos_from_playlist do
not depend on the callback. -/
theorem getVideosFromPlaylist_indep (env : Env) (pid : Str) (st : St)
    (cb cb2 : Option Callback) :
    (getVideosFromPlaylist env cb pid st).result = (getVideosFromPlaylist env cb2 pid st).result
    ∧ (getVideosFromPlaylist env cb pid st).st = (getVideosFromPlaylist env cb2 pid st).st := by
  simp only [getVideosFromPlaylist]
  split
  · exact ⟨rfl, rfl⟩
  · split
    · exact playlistBody_indep env pid true st cb cb2
    · split
      · exact playlistBody_indep env pid false (bump st) cb cb2
      · split
        · exact playlistBody_indep env pid false (bump st) cb cb2
        · exact ⟨rfl, rfl⟩

/-- primary attempt of get_all_videos never consults the callback. -/
theorem primaryAttempt_indep (env : Env) (st : St) (cid : Str) (cb cb2 : Option Callback) :
    primaryAttempt env st cid cb = primaryAttempt env st cid cb2 := by
  unfold primaryAttempt
  rfl

/-- The outcome of get_videos_with_modified_id does not depend on the
callback. -/
theorem getVideosWithModifiedId_indep (env : Env) (st : St) (cid : Str)
    (cb cb2 : Option Callback) :
    getVideosWithModifiedId env st cid cb = getVideosWithModifiedId env st cid cb2 := by
  simp only [getVideosWithModifiedId]
  split
  · obtain ⟨h1, h2⟩ := getVideosFromPlaylist_indep env
      (cid.take 1 ++ lit "U" ++ cid.drop 2) st cb cb2
    rw [h1, h2]
  · split
    · rfl
    · rename_i info st1 heq
      obtain ⟨h1, h2⟩ := getVideosFromPlaylist_indep env
        (info.channel_id.take 1 ++ lit "U" ++ info.channel_id.drop 2) st1 cb cb2
      rw [h1, h2]

/-- The outcome of get_all_videos does not depend on the callback. -/
theorem getAllVideos_indep (env : Env) (st : St) (cid : Str) (cb cb2 : Option Callback) :
    getAllVideos env st cid cb = getAllVideos env st cid cb2 := by
  unfold getAllVideos
  rw [primaryAttempt_indep env st cid cb cb2]
  split
  · rename_i videos expected st1 heq
    split
    · rfl
    · exact getVideosWithModifiedId_indep env st1 cid cb cb2
  · rename_i e st1 heq
    exact getVideosWithModifiedId_indep env st1 cid cb cb2

/-- C9 (amended): during a collection run a provided progress callback is
invoked once per fetched page that has items, with the pair (page counter,
ids collected so far), and not for an empty page, so a run whose last fetched
page is empty invokes it on fewer than all pages; callback exceptions are
swallowed, and neither the returned videos nor the final instance state of
get_videos_from_playlist or get_all_videos depends on the callback. -/
theorem c9_callback :
    (∀ env pid f fuel pageCount acc st,
      (playlistLoop env pid (some f) fuel pageCount acc st).1.trace
        = acc.trace ++ loopTrace env pid fuel pageCount acc.processed acc.allIds acc.seen)
    ∧ (∀ env pid st (cb cb2 : Option Callback),
      (getVideosFromPlaylist env cb pid st).result
          = (getVideosFromPlaylist env cb2 pid st).result
      ∧ (getVideosFromPlaylist env cb pid st).st = (getVideosFromPlaylist env cb2 pid st).st)
    ∧ (∀ env st cid (cb cb2 : Option Callback),
      getAllVideos env st cid cb = getAllVideos env st cid cb2) := by
  refine ⟨?_, ?_, ?_⟩
  · intro env pid f fuel pageCount acc st
    exact playlistLoop_trace env pid f fuel pageCount acc st
  · intro env pid st cb cb2
    exact getVideosFromPlaylist_indep env pid st cb cb2
  · intro env st cid cb cb2
    exact getAllVideos_indep env st cid cb cb2

end YTF
